import Mathlib

/-!
Verification of the multiplexer Verilog submodule generator
(`vpr7_x2p/vpr/SRC/fpga_x2p/verilog/verilog_mux.cpp`) of OpenFPGA.

The generator's collaborators (MuxGraph, ModuleManager, CircuitLibrary,
MuxLibrary) are declared in headers that are not part of the sources here;
their behaviour is modelled from the specification where it matters
(each such definition carries a `Modelled from the spec:` doc comment).
The generator functions themselves are shallow embeddings of the C++
code: writing to the output `std::fstream` is modelled by returning the
list of emitted items, `VTR_ASSERT` failures and `exit(1)` by an
`Except.error` result.
-/

/-- Modelled from the spec: a port with a name and an addressable bit range
(`BasicPort(name, width)` sets the range `[0, width-1]`;
`BasicPort(name, lsb, msb)` selects a slice). -/
structure BasicPort where
  name : String
  lsb : Nat
  msb : Nat
deriving DecidableEq, Repr, Inhabited

/-- `BasicPort(name, width)`: full range `[0, width-1]`. -/
def BasicPort.ofWidth (n : String) (w : Nat) : BasicPort := ⟨n, 0, w - 1⟩

/-- Width of the addressed bit range. -/
def BasicPort.get_width (p : BasicPort) : Nat := p.msb + 1 - p.lsb

/-- Modelled from the spec: an edge of a multiplexer graph, connecting one
input to one output, tagged with its controlling memory-bit id and a
polarity flag (whether the inverted memory bit drives the edge). -/
structure MuxEdge where
  input : Nat
  output : Nat
  mem : Nat
  inv_mem : Bool
deriving DecidableEq, Repr, Inhabited

/-- Modelled from the spec: a multiplexer (branch) graph.  Input nodes are
identified with the ids `0 .. num_inputs - 1` and output nodes with
`0 .. num_outputs - 1` (the source's `input_id`/`output_id` maps).  The
data-model invariant asks for at most one edge per (input, output) pair. -/
structure MuxGraph where
  num_inputs : Nat
  num_outputs : Nat
  num_memory_bits : Nat
  num_levels : Nat
  edges : List MuxEdge
deriving DecidableEq, Repr, Inhabited

/-- The input node ids of the graph, in iteration order. -/
def MuxGraph.inputsList (g : MuxGraph) : List Nat := List.range g.num_inputs

/-- The output node ids of the graph, in iteration order. -/
def MuxGraph.outputsList (g : MuxGraph) : List Nat := List.range g.num_outputs

/-- `find_edges(input, output)`: all edges between the given input and
output node (0 or 1 by the data-model invariant). -/
def MuxGraph.find_edges (g : MuxGraph) (i o : Nat) : List MuxEdge :=
  g.edges.filter (fun e => e.input == i && e.output == o)

/-- Modelled from the spec: a full multiplexer graph together with its
internal tree, already materialized by upstream elaboration, from which
the branch decomposition is read off. -/
structure MuxFullGraph extends MuxGraph where
  tree_branches : List MuxGraph
deriving DecidableEq, Repr, Inhabited

/-- Modelled from the spec: decomposition into branch graphs.  A graph
that already has one level is its own sole branch; otherwise the
materialized internal tree yields one branch per fan-in node,
leaves-before-root. -/
def MuxFullGraph.build_mux_branch_graphs (g : MuxFullGraph) : List MuxGraph :=
  if g.num_levels = 1 then [g.toMuxGraph] else g.tree_branches

/-- Modelled from the spec: the port types of a circuit model that the
generator distinguishes (`SPICE_MODEL_PORT_INPUT`, `..._OUTPUT`,
`..._SRAM`). -/
inductive SpicePortType where
  | pInput
  | pOutput
  | pSram
deriving DecidableEq, Repr, Inhabited

/-- Modelled from the spec: one port of a circuit model, with its library
name, width, category flags and default configuration value. -/
structure CircuitPort where
  lib_name : String
  size : Nat
  port_type : SpicePortType
  is_global : Bool
  is_mode_select : Bool
  default_value : Nat
deriving DecidableEq, Repr, Inhabited

/-- Modelled from the spec: the circuit-model types the generator
distinguishes (`SPICE_MODEL_GATE` versus the rest). -/
inductive SpiceModelType where
  | gate
  | mux
  | other
deriving DecidableEq, Repr, Inhabited

/-- Modelled from the spec: gate flavours (`SPICE_MODEL_GATE_MUX2` versus
the rest). -/
inductive SpiceGateType where
  | mux2
  | and2
  | or2
deriving DecidableEq, Repr, Inhabited

/-- Modelled from the spec: the design technology of a circuit model.
`invalid` stands for any unrecognized value reaching the dispatch
(the source's defensive `default:` case). -/
inductive SpiceDesignTech where
  | cmos
  | rram
  | invalid
deriving DecidableEq, Repr, Inhabited

/-- Modelled from the spec: the per-model data of the circuit library that
the generator reads. -/
structure CircuitModel where
  name : String
  model_type : SpiceModelType
  gate_type : SpiceGateType
  design_tech : SpiceDesignTech
  dump_structural : Bool
  dump_explicit : Bool
  pass_gate_model : Nat
  ports : List CircuitPort
deriving DecidableEq, Repr, Inhabited

/-- Modelled from the spec: the read-only circuit library, indexed by
circuit-model id. -/
abbrev CircuitLibrary := List CircuitModel

/-- Model record by id. -/
def CircuitLibrary.model (lib : CircuitLibrary) (m : Nat) : CircuitModel :=
  lib.getD m default

/-- `model_name`. -/
def CircuitLibrary.model_name (lib : CircuitLibrary) (m : Nat) : String :=
  (lib.model m).name

/-- `model_type`. -/
def CircuitLibrary.model_type (lib : CircuitLibrary) (m : Nat) : SpiceModelType :=
  (lib.model m).model_type

/-- `gate_type`. -/
def CircuitLibrary.gate_type (lib : CircuitLibrary) (m : Nat) : SpiceGateType :=
  (lib.model m).gate_type

/-- `design_tech_type`. -/
def CircuitLibrary.design_tech_type (lib : CircuitLibrary) (m : Nat) : SpiceDesignTech :=
  (lib.model m).design_tech

/-- `dump_structural_verilog`. -/
def CircuitLibrary.dump_structural_verilog (lib : CircuitLibrary) (m : Nat) : Bool :=
  (lib.model m).dump_structural

/-- `dump_explicit_port_map`. -/
def CircuitLibrary.dump_explicit_port_map (lib : CircuitLibrary) (m : Nat) : Bool :=
  (lib.model m).dump_explicit

/-- `pass_gate_logic_model`. -/
def CircuitLibrary.pass_gate_logic_model (lib : CircuitLibrary) (m : Nat) : Nat :=
  (lib.model m).pass_gate_model

/-- Modelled from the spec: `model_ports_by_type(model, type, true)` —
the model's ports of the given type, global ports excluded. -/
def CircuitLibrary.model_ports_by_type (lib : CircuitLibrary) (m : Nat)
    (t : SpicePortType) : List CircuitPort :=
  (lib.model m).ports.filter (fun p => p.port_type == t && !p.is_global)

/-- Modelled from the spec: `model_global_ports_by_type(model, INPUT, true)` —
the model's global input ports. -/
def CircuitLibrary.model_global_input_ports (lib : CircuitLibrary) (m : Nat) :
    List CircuitPort :=
  (lib.model m).ports.filter (fun p => p.is_global && p.port_type == SpicePortType.pInput)

/-- Modelled from the spec: the category of a module port in the module
manager (`MODULE_GLOBAL_PORT`, `MODULE_INPUT_PORT`, `MODULE_OUTPUT_PORT`). -/
inductive ModulePortCategory where
  | global_port
  | input_port
  | output_port
deriving DecidableEq, Repr, Inhabited

/-- Modelled from the spec: one module record of the module manager — its
name-based identity, its ordered port list and its set of child modules. -/
structure VModule where
  name : String
  ports : List (BasicPort × ModulePortCategory)
  children : List Nat
deriving DecidableEq, Repr, Inhabited

/-- Modelled from the spec: the hierarchical registry of generated modules;
ids are positions in the module list. -/
structure ModuleManager where
  modules : List VModule
deriving DecidableEq, Repr, Inhabited

/-- `find_module(name)`: id of the module with the given name, if any. -/
def ModuleManager.find_module (mm : ModuleManager) (n : String) : Option Nat :=
  mm.modules.findIdx? (fun m => m.name == n)

/-- Modelled from the spec: `add_module(name)` returns the existing id if
the name is already registered, otherwise creates an empty module —
idempotent by construction. -/
def ModuleManager.add_module (mm : ModuleManager) (n : String) : Nat × ModuleManager :=
  match mm.find_module n with
  | some id => (id, mm)
  | none => (mm.modules.length, ⟨mm.modules ++ [⟨n, [], []⟩]⟩)

/-- Apply an update to the module with the given id (no-op out of range). -/
def ModuleManager.update_module (mm : ModuleManager) (id : Nat) (f : VModule → VModule) :
    ModuleManager :=
  ⟨mm.modules.set id (f (mm.modules.getD id default))⟩

/-- `add_port(module, port, category)`: appends, with no duplicate checks. -/
def ModuleManager.add_port (mm : ModuleManager) (id : Nat) (p : BasicPort)
    (c : ModulePortCategory) : ModuleManager :=
  mm.update_module id (fun m => { m with ports := m.ports ++ [(p, c)] })

/-- Modelled from the spec: `add_child_module(parent, child)` records the
usage edge; a duplicate call for the same pair is a no-op. -/
def ModuleManager.add_child_module (mm : ModuleManager) (parent child : Nat) :
    ModuleManager :=
  mm.update_module parent
    (fun m => if child ∈ m.children then m else { m with children := m.children ++ [child] })

/-- Ports of the module with the given id. -/
def ModuleManager.module_ports (mm : ModuleManager) (id : Nat) :
    List (BasicPort × ModulePortCategory) :=
  (mm.modules.getD id default).ports

/-- Children of the module with the given id. -/
def ModuleManager.module_children (mm : ModuleManager) (id : Nat) : List Nat :=
  (mm.modules.getD id default).children

/-- Number of registered modules. -/
def ModuleManager.num_modules (mm : ModuleManager) : Nat :=
  mm.modules.length

/-- One item written to the Verilog output stream.  Emission of text is
abstracted into the data that the corresponding writer call receives. -/
inductive VItem where
  | comment (s : String)
  | v_instance (parent child : Nat) (port_map : List (String × BasicPort)) (explicit_map : Bool)
  | reg_decl (p : BasicPort)
  | always_sens (ps : List BasicPort)
  | case_head (p : BasicPort)
  | case_entry (lit : List Char) (target : BasicPort) (source : BasicPort)
  | case_default_entry (target : BasicPort) (lit : List Char)
  | case_close
  | cont_assign (lhs rhs : BasicPort)
  | module_decl (id : Nat)
  | module_end (n : String)
  | file_header (s : String)
  | include_defines (dir : String)
deriving DecidableEq, Repr, Inhabited

/-- Insertion into a string-keyed map, modelling `std::map::operator[]`:
an existing key is overwritten, a new key is added. -/
def mapInsert (m : List (String × BasicPort)) (k : String) (v : BasicPort) :
    List (String × BasicPort) :=
  match m with
  | [] => [(k, v)]
  | (k', v') :: rest =>
    if k' = k then (k, v) :: rest else (k', v') :: mapInsert rest k v

/-!
Shallow embedding of the generator functions of `verilog_mux.cpp`.
Each function returns the list of items it writes to the stream (and the
updated module manager where it mutates one); a `VTR_ASSERT` failure or
`exit(1)` becomes an `Except.error`.
-/

/-- Inner loop of `generate_verilog_cmos_mux_branch_body_structural`:
for one input node `i`, iterate over the output nodes, and for every
(input, output) pair connected by an edge emit one transmission-gate
instance and record the child-module relation. -/
def struct_out_loop (lib : CircuitLibrary) (tgate_model : Nat)
    (tin tout : List CircuitPort) (module_id tgate_module_id : Nat)
    (input_port output_port mem_port mem_inv_port : BasicPort)
    (g : MuxGraph) (i : Nat) (outs : List Nat) (mm : ModuleManager) :
    Except String (List VItem × ModuleManager) :=
  match outs with
  | [] => Except.ok ([], mm)
  | o :: rest =>
    let cur_input_port : BasicPort := ⟨input_port.name, i, i⟩
    let cur_output_port : BasicPort := ⟨output_port.name, o, o⟩
    match g.find_edges i o with
    | [] =>
      struct_out_loop lib tgate_model tin tout module_id tgate_module_id
        input_port output_port mem_port mem_inv_port g i rest mm
    | [e] =>
      let pm0 := mapInsert [] (tin.getD 0 default).lib_name cur_input_port
      let pm1 := mapInsert pm0 (tout.getD 0 default).lib_name cur_output_port
      let cur_mem_port : BasicPort := ⟨mem_port.name, e.mem, e.mem⟩
      let cur_mem_inv_port : BasicPort := ⟨mem_inv_port.name, e.mem, e.mem⟩
      let pm :=
        if e.inv_mem = false then
          mapInsert (mapInsert pm1 (tin.getD 1 default).lib_name cur_mem_port)
            (tin.getD 2 default).lib_name cur_mem_inv_port
        else
          mapInsert (mapInsert pm1 (tin.getD 1 default).lib_name cur_mem_inv_port)
            (tin.getD 2 default).lib_name cur_mem_port
      let item := VItem.v_instance module_id tgate_module_id pm
        (lib.dump_explicit_port_map tgate_model)
      let mm1 := mm.add_child_module module_id tgate_module_id
      match struct_out_loop lib tgate_model tin tout module_id tgate_module_id
          input_port output_port mem_port mem_inv_port g i rest mm1 with
      | Except.ok (items, mm2) => Except.ok (item :: items, mm2)
      | Except.error msg => Except.error msg
    | _ => Except.error "assert: at most one edge per input-output pair"

/-- Outer loop of `generate_verilog_cmos_mux_branch_body_structural`:
iterate over the input nodes. -/
def struct_in_loop (lib : CircuitLibrary) (tgate_model : Nat)
    (tin tout : List CircuitPort) (module_id tgate_module_id : Nat)
    (input_port output_port mem_port mem_inv_port : BasicPort)
    (g : MuxGraph) (ins : List Nat) (mm : ModuleManager) :
    Except String (List VItem × ModuleManager) :=
  match ins with
  | [] => Except.ok ([], mm)
  | i :: rest =>
    match struct_out_loop lib tgate_model tin tout module_id tgate_module_id
        input_port output_port mem_port mem_inv_port g i g.outputsList mm with
    | Except.ok (items1, mm1) =>
      match struct_in_loop lib tgate_model tin tout module_id tgate_module_id
          input_port output_port mem_port mem_inv_port g rest mm1 with
      | Except.ok (items2, mm2) => Except.ok (items1 ++ items2, mm2)
      | Except.error msg => Except.error msg
    | Except.error msg => Except.error msg

/-- `generate_verilog_cmos_mux_branch_body_structural`: look up the
transmission-gate module, check its port counts, then emit one instance
per connected (input, output) pair. -/
def generate_verilog_cmos_mux_branch_body_structural (mm : ModuleManager)
    (lib : CircuitLibrary) (tgate_model : Nat) (module_id : Nat)
    (input_port output_port mem_port mem_inv_port : BasicPort) (g : MuxGraph) :
    Except String (List VItem × ModuleManager) :=
  match mm.find_module (lib.model_name tgate_model) with
  | none => Except.error "assert: tgate module not registered in module manager"
  | some tgate_module_id =>
    let tin := lib.model_ports_by_type tgate_model SpicePortType.pInput
    let tout := lib.model_ports_by_type tgate_model SpicePortType.pOutput
    if tin.length ≠ 3 then Except.error "assert: tgate must have 3 input ports"
    else if tout.length ≠ 1 then Except.error "assert: tgate must have 1 output port"
    else
      match struct_in_loop lib tgate_model tin tout module_id tgate_module_id
          input_port output_port mem_port mem_inv_port g g.inputsList mm with
      | Except.ok (items, mm') =>
        Except.ok (VItem.comment "---- Structure-level description -----" :: items, mm')
      | Except.error msg => Except.error msg

/-- Inner loop of `generate_verilog_cmos_mux_branch_body_behavioral`:
for one input node `i`, iterate over the output nodes and emit one case
entry per connected (input, output) pair.  The case literal is the
memory-width string filled with the default value, with the bit at the
edge's memory index forced to the activating value. -/
def behav_out_loop (input_port outreg_port mem_port : BasicPort)
    (g : MuxGraph) (default_mem_val : Char) (i : Nat) (outs : List Nat) :
    Except String (List VItem) :=
  match outs with
  | [] => Except.ok []
  | o :: rest =>
    let cur_input_port : BasicPort := ⟨input_port.name, i, i⟩
    match g.find_edges i o with
    | [] => behav_out_loop input_port outreg_port mem_port g default_mem_val i rest
    | [e] =>
      let case_code :=
        (List.replicate mem_port.get_width default_mem_val).set e.mem
          (if e.inv_mem = false then '1' else '0')
      let item := VItem.case_entry case_code outreg_port cur_input_port
      match behav_out_loop input_port outreg_port mem_port g default_mem_val i rest with
      | Except.ok items => Except.ok (item :: items)
      | Except.error msg => Except.error msg
    | _ => Except.error "assert: at most one edge per input-output pair"

/-- Outer loop of `generate_verilog_cmos_mux_branch_body_behavioral`:
iterate over the input nodes. -/
def behav_in_loop (input_port outreg_port mem_port : BasicPort)
    (g : MuxGraph) (default_mem_val : Char) (ins : List Nat) :
    Except String (List VItem) :=
  match ins with
  | [] => Except.ok []
  | i :: rest =>
    match behav_out_loop input_port outreg_port mem_port g default_mem_val i g.outputsList with
    | Except.ok items1 =>
      match behav_in_loop input_port outreg_port mem_port g default_mem_val rest with
      | Except.ok items2 => Except.ok (items1 ++ items2)
      | Except.error msg => Except.error msg
    | Except.error msg => Except.error msg

/-- `generate_verilog_cmos_mux_branch_body_behavioral`: declare the
internal output register, open the case table on the memory port, emit
one case entry per connected pair, a default case driving the register
to high impedance, and finally assign the register to the output port. -/
def generate_verilog_cmos_mux_branch_body_behavioral
    (input_port output_port mem_port : BasicPort) (g : MuxGraph)
    (default_mem_val : Char) : Except String (List VItem) :=
  let outreg_port : BasicPort := BasicPort.ofWidth "out_reg" g.num_outputs
  match behav_in_loop input_port outreg_port mem_port g default_mem_val g.inputsList with
  | Except.ok entries =>
    Except.ok
      ([VItem.comment "---- Behavioral-level description -----",
        VItem.reg_decl outreg_port,
        VItem.always_sens [input_port, mem_port],
        VItem.case_head mem_port] ++ entries ++
       [VItem.case_default_entry outreg_port (List.replicate g.num_outputs 'z'),
        VItem.case_close,
        VItem.cont_assign output_port outreg_port])
  | Except.error msg => Except.error msg

/-- `generate_verilog_cmos_mux_branch_module`: skip models whose pass-gate
sub-model is a 2:1 logic gate; check the single-output / single-level
invariants; register the module and its ports; then emit the structural
or the behavioral body according to the flag. -/
def generate_verilog_cmos_mux_branch_module (mm : ModuleManager)
    (lib : CircuitLibrary) (circuit_model : Nat) (module_name : String)
    (g : MuxGraph) (use_structural_verilog : Bool) :
    Except String (List VItem × ModuleManager) :=
  let tgate_model := lib.pass_gate_logic_model circuit_model
  if lib.model_type tgate_model = SpiceModelType.gate then
    if lib.gate_type tgate_model = SpiceGateType.mux2 then
      Except.ok ([], mm)
    else Except.error "assert: a gate-type pass-gate model must be a MUX2"
  else
    let tgate_global_ports := lib.model_global_input_ports tgate_model
    let num_inputs := g.num_inputs
    let num_outputs := g.num_outputs
    let num_mems := g.num_memory_bits
    if num_outputs ≠ 1 then Except.error "assert: MUX graph must have only 1 output"
    else if g.num_levels ≠ 1 then Except.error "assert: MUX graph must have only 1 level"
    else
      let idmm := mm.add_module module_name
      let module_id := idmm.fst
      let mm1 := idmm.snd
      let mm2 := tgate_global_ports.foldl
        (fun acc p => acc.add_port module_id (BasicPort.ofWidth p.lib_name p.size)
          ModulePortCategory.global_port) mm1
      let input_port := BasicPort.ofWidth "in" num_inputs
      let mm3 := mm2.add_port module_id input_port ModulePortCategory.input_port
      let output_port := BasicPort.ofWidth "out" num_outputs
      let mm4 := mm3.add_port module_id output_port ModulePortCategory.output_port
      let mem_port := BasicPort.ofWidth "mem" num_mems
      let mm5 := mm4.add_port module_id mem_port ModulePortCategory.input_port
      let mem_inv_port := BasicPort.ofWidth "mem_inv" num_mems
      let mm6 := mm5.add_port module_id mem_inv_port ModulePortCategory.input_port
      if use_structural_verilog then
        match generate_verilog_cmos_mux_branch_body_structural mm6 lib tgate_model
            module_id input_port output_port mem_port mem_inv_port g with
        | Except.ok (body, mm7) =>
          Except.ok (VItem.module_decl module_id :: body ++ [VItem.module_end module_name], mm7)
        | Except.error msg => Except.error msg
      else
        let sram_ports := lib.model_ports_by_type circuit_model SpicePortType.pSram
        let non_mode_select_sram_ports := sram_ports.filter (fun p => !p.is_mode_select)
        if non_mode_select_sram_ports.length = 1 then
          let mem_default_val := toString (non_mode_select_sram_ports.getD 0 default).default_value
          if mem_default_val.length = 1 then
            match generate_verilog_cmos_mux_branch_body_behavioral input_port output_port
                mem_port g (mem_default_val.toList.getD 0 'x') with
            | Except.ok body =>
              Except.ok (VItem.module_decl module_id :: body ++ [VItem.module_end module_name], mm6)
            | Except.error msg => Except.error msg
          else Except.error "assert: mem default value string must be 1 character"
        else Except.error "assert: exactly one non-mode-select sram port expected"

/-- `verilog_mux_basis_posfix` (from `verilog_global`): suffix of branch
module names. -/
def verilog_mux_basis_posfix : String := "_basis"

/-- Modelled from the spec: `generate_verilog_mux_branch_subckt_name` —
the deterministic branch module name, a pure function of the circuit
model identity, the overall multiplexer size and the branch input count. -/
def generate_verilog_mux_branch_subckt_name (lib : CircuitLibrary)
    (circuit_model : Nat) (mux_size : Nat) (branch_num_inputs : Nat)
    (posfix : String) : String :=
  lib.model_name circuit_model ++ "_mux" ++ toString mux_size ++ "_"
    ++ toString branch_num_inputs ++ posfix

/-- `generate_verilog_mux_branch_module`: derive the deterministic module
name and dispatch on the design technology of the multiplexer's circuit
model.  CMOS routes to the CMOS generator with the model's structural
flag; RRAM is a commented-out placeholder emitting nothing; any other
value aborts via `exit(1)`. -/
def generate_verilog_mux_branch_module (mm : ModuleManager) (lib : CircuitLibrary)
    (circuit_model : Nat) (mux_size : Nat) (g : MuxGraph) :
    Except String (List VItem × ModuleManager) :=
  let module_name := generate_verilog_mux_branch_subckt_name lib circuit_model
    mux_size g.num_inputs verilog_mux_basis_posfix
  match lib.design_tech_type circuit_model with
  | SpiceDesignTech.cmos =>
    generate_verilog_cmos_mux_branch_module mm lib circuit_model module_name g
      (lib.dump_structural_verilog circuit_model)
  | SpiceDesignTech.rram => Except.ok ([], mm)
  | SpiceDesignTech.invalid => Except.error "Invalid design technology of multiplexer"

/-- Modelled from the spec: one entry of the MuxLibrary — a circuit-model
id together with the full multiplexer graph. -/
structure MuxLibEntry where
  circuit_model : Nat
  graph : MuxFullGraph
deriving DecidableEq, Repr, Inhabited

/-- Modelled from the spec: the catalogue of distinct multiplexers. -/
abbrev MuxLibrary := List MuxLibEntry

/-- Modelled from the spec: `max_mux_size` — the library-wide maximum
multiplexer size. -/
def MuxLibrary.max_mux_size (mux_lib : MuxLibrary) : Nat :=
  mux_lib.foldl (fun acc e => max acc e.graph.num_inputs) 0

/-- Inner loop of `print_verilog_submodule_muxes`: generate a module for
each branch graph of one library entry. -/
def mux_branch_loop (mm : ModuleManager) (lib : CircuitLibrary)
    (circuit_model : Nat) (mux_size : Nat) (branches : List MuxGraph) :
    Except String (List VItem × ModuleManager) :=
  match branches with
  | [] => Except.ok ([], mm)
  | b :: rest =>
    match generate_verilog_mux_branch_module mm lib circuit_model mux_size b with
    | Except.ok (items1, mm1) =>
      match mux_branch_loop mm1 lib circuit_model mux_size rest with
      | Except.ok (items2, mm2) => Except.ok (items1 ++ items2, mm2)
      | Except.error msg => Except.error msg
    | Except.error msg => Except.error msg

/-- Outer loop of `print_verilog_submodule_muxes`: decompose each library
entry into branch graphs and generate their modules in order. -/
def mux_lib_loop (mm : ModuleManager) (lib : CircuitLibrary)
    (entries : List MuxLibEntry) : Except String (List VItem × ModuleManager) :=
  match entries with
  | [] => Except.ok ([], mm)
  | e :: rest =>
    match mux_branch_loop mm lib e.circuit_model e.graph.num_inputs
        e.graph.build_mux_branch_graphs with
    | Except.ok (items1, mm1) =>
      match mux_lib_loop mm1 lib rest with
      | Except.ok (items2, mm2) => Except.ok (items1 ++ items2, mm2)
      | Except.error msg => Except.error msg
    | Except.error msg => Except.error msg

/-- `muxes_verilog_file_name` (from `verilog_global`).  Modelled from the
spec: the fixed base name of the multiplexer netlist file. -/
def muxes_verilog_file_name : String := "muxes.v"

/-- One observable event of the generation pass: either an item written to
the netlist stream, or the single call into the external
configuration-memory-organization state
(`try_update_sram_orgz_info_reserved_blwl(state, bl, wl)`). -/
inductive PassEvent where
  | emit (v : VItem)
  | update_reserved_blwl (bl wl : Nat)
deriving DecidableEq, Repr, Inhabited

/-- Result of a successful generation pass: the name of the file the
netlist text was written to, its content, the ordered event trace and
the final module manager. -/
structure MuxPassResult where
  fname : String
  content : List VItem
  events : List PassEvent
  module_manager : ModuleManager
deriving DecidableEq, Repr, Inhabited

/-- `print_verilog_submodule_muxes`: open the output file under the base
name extended with the `.bak` staging suffix (no rename happens
afterwards — the source leaves promotion as a TODO), write the header,
the preprocessor includes and one module per branch of every library
entry, close the stream, then — after the whole library is consumed —
call the reserved bit-line/word-line update with the library-wide
maximum multiplexer size for both dimensions. -/
def print_verilog_submodule_muxes (mm : ModuleManager) (mux_lib : MuxLibrary)
    (lib : CircuitLibrary) (verilog_dir submodule_dir : String) :
    Except String MuxPassResult :=
  let verilog_fname := submodule_dir ++ muxes_verilog_file_name ++ ".bak"
  match mux_lib_loop mm lib mux_lib with
  | Except.ok (items, mm') =>
    let content := VItem.file_header "Multiplexers" :: VItem.include_defines verilog_dir :: items
    Except.ok
      { fname := verilog_fname
        content := content
        events := content.map PassEvent.emit ++
          [PassEvent.update_reserved_blwl mux_lib.max_mux_size mux_lib.max_mux_size]
        module_manager := mm' }
  | Except.error msg => Except.error msg

/-- Discriminator for the reserved bit-line/word-line update event. -/
def PassEvent.is_update : PassEvent → Bool
  | PassEvent.update_reserved_blwl _ _ => true
  | PassEvent.emit _ => false

/-- Projection of a successful pass result (default on error). -/
def passOkResult (x : Except String MuxPassResult) : MuxPassResult :=
  match x with
  | Except.ok r => r
  | Except.error _ => default

/-- Projection of a successful generation result (default on error). -/
def genOkResult (x : Except String (List VItem × ModuleManager)) :
    List VItem × ModuleManager :=
  match x with
  | Except.ok y => y
  | Except.error _ => ([], default)

/-- Claim-side description of one structural instance: for a connected
(input, output) pair, the pass-gate instance wires the single-bit input
slice to the gate's data input, the single-bit output slice to its data
output, and the mem / mem_inv slices at the edge's memory bit to the two
control terminals — in that order for a non-inverted edge, swapped for
an inverted one. -/
def spec_struct_inst (lib : CircuitLibrary) (tgate_model : Nat)
    (module_id tgate_module_id : Nat)
    (input_port output_port mem_port mem_inv_port : BasicPort)
    (g : MuxGraph) (i o : Nat) : Option VItem :=
  match g.find_edges i o with
  | [e] =>
    some (VItem.v_instance module_id tgate_module_id
      [(((lib.model_ports_by_type tgate_model SpicePortType.pInput).getD 0 default).lib_name,
         ⟨input_port.name, i, i⟩),
       (((lib.model_ports_by_type tgate_model SpicePortType.pOutput).getD 0 default).lib_name,
         ⟨output_port.name, o, o⟩),
       (((lib.model_ports_by_type tgate_model SpicePortType.pInput).getD 1 default).lib_name,
         if e.inv_mem then ⟨mem_inv_port.name, e.mem, e.mem⟩ else ⟨mem_port.name, e.mem, e.mem⟩),
       (((lib.model_ports_by_type tgate_model SpicePortType.pInput).getD 2 default).lib_name,
         if e.inv_mem then ⟨mem_port.name, e.mem, e.mem⟩ else ⟨mem_inv_port.name, e.mem, e.mem⟩)]
      (lib.dump_explicit_port_map tgate_model))
  | _ => none

/-- Claim-side description of the structural emission: exactly one
pass-gate instance per (input, output) pair connected by an edge, none
for unconnected pairs. -/
def spec_structural_instances (lib : CircuitLibrary) (tgate_model : Nat)
    (module_id tgate_module_id : Nat)
    (input_port output_port mem_port mem_inv_port : BasicPort)
    (g : MuxGraph) : List VItem :=
  g.inputsList.flatMap (fun i =>
    g.outputsList.filterMap
      (spec_struct_inst lib tgate_model module_id tgate_module_id
        input_port output_port mem_port mem_inv_port g i))

/-- Claim-side description of one behavioral case entry: for a connected
(input, output) pair, a literal of memory width whose every bit is the
shared default except the bit at the edge's memory index, forced to '1'
for a non-inverted edge and to '0' for an inverted one; the entry
assigns the input slice to the output register. -/
def spec_behav_entry (input_port outreg_port : BasicPort) (w : Nat) (d : Char)
    (g : MuxGraph) (i o : Nat) : Option VItem :=
  match g.find_edges i o with
  | [e] =>
    some (VItem.case_entry
      ((List.range w).map (fun k => if k = e.mem then (if e.inv_mem then '0' else '1') else d))
      outreg_port ⟨input_port.name, i, i⟩)
  | _ => none

/-- Claim-side description of the behavioral case table. -/
def spec_behav_case_entries (input_port outreg_port : BasicPort) (w : Nat)
    (d : Char) (g : MuxGraph) : List VItem :=
  g.inputsList.flatMap (fun i =>
    g.outputsList.filterMap (spec_behav_entry input_port outreg_port w d g i))

/-- Claim-side description of the registered branch-module interface: one
global port per global input port of the pass-gate model, then `in`,
`out`, `mem` and `mem_inv` with the graph's widths, in this order. -/
def cmos_branch_module_ports (lib : CircuitLibrary) (tgate_model : Nat) (g : MuxGraph) :
    List (BasicPort × ModulePortCategory) :=
  (lib.model_global_input_ports tgate_model).map
    (fun p => (BasicPort.ofWidth p.lib_name p.size, ModulePortCategory.global_port)) ++
  [(BasicPort.ofWidth "in" g.num_inputs, ModulePortCategory.input_port),
   (BasicPort.ofWidth "out" g.num_outputs, ModulePortCategory.output_port),
   (BasicPort.ofWidth "mem" g.num_memory_bits, ModulePortCategory.input_port),
   (BasicPort.ofWidth "mem_inv" g.num_memory_bits, ModulePortCategory.input_port)]

/-!
Concrete fixtures used by counterexamples and witnesses.
-/

/-- A transmission-gate model: three non-global inputs, one output. -/
def tgate_cm : CircuitModel :=
  ⟨"tgate", SpiceModelType.other, SpiceGateType.and2, SpiceDesignTech.cmos, true, false, 0,
   [⟨"in", 1, SpicePortType.pInput, false, false, 0⟩,
    ⟨"sel", 1, SpicePortType.pInput, false, false, 0⟩,
    ⟨"selb", 1, SpicePortType.pInput, false, false, 0⟩,
    ⟨"out", 1, SpicePortType.pOutput, false, false, 0⟩]⟩

/-- A non-mode-select configuration port with default value 0. -/
def sram_port0 : CircuitPort := ⟨"sram", 1, SpicePortType.pSram, false, false, 0⟩

/-- A CMOS multiplexer model generated behaviorally, whose pass-gate model
is `tgate_cm` (model id 1). -/
def muxA_cm : CircuitModel :=
  ⟨"muxA", SpiceModelType.mux, SpiceGateType.and2, SpiceDesignTech.cmos, false, false, 1,
   [sram_port0]⟩

/-- Example library: model 0 is `muxA_cm`, model 1 is `tgate_cm`. -/
def exLib : CircuitLibrary := [muxA_cm, tgate_cm]

/-- A single-level 2:1 branch graph with two non-inverted edges. -/
def g2 : MuxGraph := ⟨2, 1, 2, 1, [⟨0, 0, 0, false⟩, ⟨1, 0, 1, false⟩]⟩

/-- `g2` as a full multiplexer graph (single level, its own branch). -/
def gf2 : MuxFullGraph := ⟨g2, []⟩

/-- The 4:1 single-level branch graph of the spec's emission examples:
edges (in0,out)↦mem0, (in1,out)↦mem1 inverted, (in2,out)↦mem2,
(in3,out)↦mem3. -/
def g4 : MuxGraph :=
  ⟨4, 1, 4, 1,
   [⟨0, 0, 0, false⟩, ⟨1, 0, 1, true⟩, ⟨2, 0, 2, false⟩, ⟨3, 0, 3, false⟩]⟩

/-- A library holding the same (model, graph) multiplexer twice. -/
def c1_mux_lib : MuxLibrary := [⟨0, gf2⟩, ⟨0, gf2⟩]

/-- Result of the generation pass over the duplicated library. -/
def c1_result : MuxPassResult :=
  passOkResult (print_verilog_submodule_muxes ⟨[]⟩ c1_mux_lib exLib "" "")

/-- A module manager in which the branch name is already registered. -/
def c1w_mm : ModuleManager := ⟨[⟨"muxA_mux2_2_basis", [], []⟩]⟩

/-- Result of regenerating the branch over `c1w_mm`. -/
def c1w_out : List VItem × ModuleManager :=
  genOkResult (generate_verilog_cmos_mux_branch_module c1w_mm exLib 0 "muxA_mux2_2_basis" g2 false)

/-- Result of the generation pass over an empty library. -/
def c2_result_val : MuxPassResult :=
  passOkResult (print_verilog_submodule_muxes ⟨[]⟩ [] [] "" "out/")

/-- Result of the generation pass over an empty library, empty directory. -/
def c2w_result : MuxPassResult :=
  passOkResult (print_verilog_submodule_muxes ⟨[]⟩ [] [] "" "")

/-- A pass-gate model that is a 2:1 logic gate. -/
def mux2_gate_cm : CircuitModel :=
  ⟨"mux2gate", SpiceModelType.gate, SpiceGateType.mux2, SpiceDesignTech.cmos, true, false, 0, []⟩

/-- A multiplexer model with an unrecognized design technology whose
pass-gate model is the 2:1 logic gate (model id 1). -/
def c7_lib : CircuitLibrary :=
  [⟨"muxBad", SpiceModelType.mux, SpiceGateType.and2, SpiceDesignTech.invalid, true, false, 1, []⟩,
   mux2_gate_cm]

/-- A CMOS multiplexer model whose pass-gate model is the 2:1 logic gate. -/
def c7w_lib : CircuitLibrary :=
  [⟨"muxW", SpiceModelType.mux, SpiceGateType.and2, SpiceDesignTech.cmos, true, false, 1, []⟩,
   mux2_gate_cm]

/-- A branch graph with two outputs (violating the emission invariant). -/
def g_out2 : MuxGraph := ⟨2, 2, 2, 1, []⟩

/-- A CMOS multiplexer model whose pass-gate model is the 2:1 logic gate
(model id 1), used to reach the skip before the shape check. -/
def c5_lib : CircuitLibrary :=
  [⟨"muxSkip", SpiceModelType.mux, SpiceGateType.and2, SpiceDesignTech.cmos, true, false, 1, []⟩,
   mux2_gate_cm]

/-- A behavioral CMOS multiplexer model with two non-mode-select
configuration ports sharing the same default value 0. -/
def c8_lib : CircuitLibrary :=
  [⟨"muxB", SpiceModelType.mux, SpiceGateType.and2, SpiceDesignTech.cmos, false, false, 1,
    [sram_port0, ⟨"sram2", 1, SpicePortType.pSram, false, false, 0⟩]⟩,
   tgate_cm]

/-- A single-entry library over `exLib`, maximum multiplexer size 2. -/
def c9_mux_lib : MuxLibrary := [⟨0, gf2⟩]

/-- Result of the generation pass over the single-entry library. -/
def c9_result : MuxPassResult :=
  passOkResult (print_verilog_submodule_muxes ⟨[]⟩ c9_mux_lib exLib "" "")

/-- A module manager already holding the transmission-gate module (id 0)
and the branch module under construction (id 1). -/
def c3w_mm : ModuleManager := ⟨[⟨"tgate", [], []⟩, ⟨"branch", [], []⟩]⟩

/-- Code-side closed form of one behavioral case entry, read off the inner
loop of `generate_verilog_cmos_mux_branch_body_behavioral`. -/
def behav_code_entry (ip orp mp : BasicPort) (g : MuxGraph) (d : Char)
    (i o : Nat) : Option VItem :=
  match g.find_edges i o with
  | [e] =>
    some (VItem.case_entry
      ((List.replicate mp.get_width d).set e.mem (if e.inv_mem = false then '1' else '0'))
      orp ⟨ip.name, i, i⟩)
  | _ => none

/-- Code-side closed form of one structural instance, read off the inner
loop of `generate_verilog_cmos_mux_branch_body_structural`. -/
def struct_code_inst (lib : CircuitLibrary) (tgate_model : Nat)
    (tin tout : List CircuitPort) (module_id tgate_module_id : Nat)
    (ip op mp mip : BasicPort) (g : MuxGraph) (i o : Nat) : Option VItem :=
  match g.find_edges i o with
  | [e] =>
    some (VItem.v_instance module_id tgate_module_id
      (if e.inv_mem = false then
        mapInsert (mapInsert (mapInsert (mapInsert [] (tin.getD 0 default).lib_name
          ⟨ip.name, i, i⟩) (tout.getD 0 default).lib_name ⟨op.name, o, o⟩)
          (tin.getD 1 default).lib_name ⟨mp.name, e.mem, e.mem⟩)
          (tin.getD 2 default).lib_name ⟨mip.name, e.mem, e.mem⟩
      else
        mapInsert (mapInsert (mapInsert (mapInsert [] (tin.getD 0 default).lib_name
          ⟨ip.name, i, i⟩) (tout.getD 0 default).lib_name ⟨op.name, o, o⟩)
          (tin.getD 1 default).lib_name ⟨mip.name, e.mem, e.mem⟩)
          (tin.getD 2 default).lib_name ⟨mp.name, e.mem, e.mem⟩)
      (lib.dump_explicit_port_map tgate_model))
  | _ => none

/-!
Supporting lemmas about the module manager.
-/

/-- Updating a module record does not change the module count. -/
lemma ModuleManager.num_modules_update_module (mm : ModuleManager) (id : Nat)
    (f : VModule → VModule) : (mm.update_module id f).num_modules = mm.num_modules := by
  simp [ModuleManager.update_module, ModuleManager.num_modules]

/-- Recording a child relation does not change the module count. -/
lemma ModuleManager.num_modules_add_child_module (mm : ModuleManager) (p c : Nat) :
    (mm.add_child_module p c).num_modules = mm.num_modules := by
  simp [ModuleManager.add_child_module, ModuleManager.num_modules_update_module]

/-- Adding a port does not change the module count. -/
lemma ModuleManager.num_modules_add_port (mm : ModuleManager) (id : Nat)
    (p : BasicPort) (c : ModulePortCategory) :
    (mm.add_port id p c).num_modules = mm.num_modules := by
  simp [ModuleManager.add_port, ModuleManager.num_modules_update_module]

/-- `add_module` creates a record exactly when the name is fresh. -/
lemma ModuleManager.num_modules_add_module (mm : ModuleManager) (n : String) :
    (mm.add_module n).snd.num_modules =
      (if mm.find_module n = none then mm.num_modules + 1 else mm.num_modules) := by
  unfold ModuleManager.add_module
  cases h : mm.find_module n <;> simp [h, ModuleManager.num_modules]

/-- The module record seen through `update_module` at another id, or the
same id with a field-preserving function, keeps its fields readable. -/
lemma ModuleManager.modules_getD_update_module (mm : ModuleManager) (id x : Nat)
    (f : VModule → VModule) :
    ((mm.update_module id f).modules.getD x default) =
      (if id = x ∧ x < mm.modules.length then f (mm.modules.getD x default)
       else mm.modules.getD x default) := by
  unfold ModuleManager.update_module
  rcases Nat.lt_or_ge x mm.modules.length with hx | hx
  · simp only [List.getD_eq_getElem?_getD, List.getElem?_set]
    rcases Decidable.em (id = x) with hid | hid
    · subst hid
      simp [hx, List.getElem?_eq_getElem hx]
    · simp [hid, hx]
  · have hcond : ¬ (id = x ∧ x < mm.modules.length) := by omega
    rw [if_neg hcond]
    simp only [List.getD_eq_getElem?_getD]
    rw [List.getElem?_eq_none (by simpa using hx), List.getElem?_eq_none hx]

/-- Recording a child relation keeps every module's ports. -/
lemma ModuleManager.module_ports_add_child_module (mm : ModuleManager) (p c x : Nat) :
    (mm.add_child_module p c).module_ports x = mm.module_ports x := by
  unfold ModuleManager.add_child_module ModuleManager.module_ports
  rw [ModuleManager.modules_getD_update_module]
  split
  · split <;> simp
  · rfl

/-- Membership in a module's child list survives recording another child. -/
lemma ModuleManager.mem_children_add_child_module_of_mem (mm : ModuleManager)
    (p c q x : Nat) (hx : x ∈ mm.module_children q) :
    x ∈ (mm.add_child_module p c).module_children q := by
  unfold ModuleManager.add_child_module ModuleManager.module_children at *
  rw [ModuleManager.modules_getD_update_module]
  split
  · split
    · exact hx
    · simpa using Or.inl hx
  · exact hx

/-- Recording a child relation makes the child visible, provided the
parent id is a real module. -/
lemma ModuleManager.mem_children_add_child_module (mm : ModuleManager) (p c : Nat)
    (hp : p < mm.num_modules) : c ∈ (mm.add_child_module p c).module_children p := by
  unfold ModuleManager.add_child_module ModuleManager.module_children
  rw [ModuleManager.modules_getD_update_module]
  have hcond : p = p ∧ p < mm.modules.length := ⟨rfl, hp⟩
  rw [if_pos hcond]
  split
  · assumption
  · simp

/-- A successful inner structural loop emits no module terminator and
creates no module record. -/
lemma struct_out_loop_no_module_end (lib : CircuitLibrary) (tgate_model : Nat)
    (tin tout : List CircuitPort) (module_id tgate_module_id : Nat)
    (ip op mp mip : BasicPort) (g : MuxGraph) (i : Nat) :
    ∀ (outs : List Nat) (mm : ModuleManager) (items : List VItem) (mm₂ : ModuleManager),
      struct_out_loop lib tgate_model tin tout module_id tgate_module_id
        ip op mp mip g i outs mm = Except.ok (items, mm₂) →
      (∀ s, VItem.module_end s ∉ items) ∧ mm₂.num_modules = mm.num_modules := by
  intro outs
  induction outs with
  | nil =>
    intro mm items mm₂ h
    simp only [struct_out_loop, Except.ok.injEq, Prod.mk.injEq] at h
    obtain ⟨h1, h2⟩ := h
    subst h1; subst h2
    simp
  | cons o rest ih =>
    intro mm items mm₂ h
    simp only [struct_out_loop] at h
    cases hfe : g.find_edges i o with
    | nil =>
      rw [hfe] at h
      exact ih mm items mm₂ h
    | cons e tail =>
      cases tail with
      | nil =>
        rw [hfe] at h
        cases hrec : struct_out_loop lib tgate_model tin tout module_id tgate_module_id
            ip op mp mip g i rest (mm.add_child_module module_id tgate_module_id) with
        | error msg => rw [hrec] at h; cases h
        | ok pr =>
          obtain ⟨items', mm₂'⟩ := pr
          rw [hrec] at h
          simp only [Except.ok.injEq, Prod.mk.injEq] at h
          obtain ⟨h1, h2⟩ := h
          subst h1; subst h2
          obtain ⟨hmem, hnum⟩ := ih _ items' mm₂' hrec
          refine ⟨?_, ?_⟩
          · intro s hs
            rcases List.mem_cons.mp hs with hs | hs
            · cases hs
            · exact hmem s hs
          · rw [hnum, ModuleManager.num_modules_add_child_module]
      | cons e2 tail2 =>
        rw [hfe] at h
        cases h

/-- A successful structural body emits no module terminator and creates
no module record. -/
lemma struct_in_loop_no_module_end (lib : CircuitLibrary) (tgate_model : Nat)
    (tin tout : List CircuitPort) (module_id tgate_module_id : Nat)
    (ip op mp mip : BasicPort) (g : MuxGraph) :
    ∀ (ins : List Nat) (mm : ModuleManager) (items : List VItem) (mm₂ : ModuleManager),
      struct_in_loop lib tgate_model tin tout module_id tgate_module_id
        ip op mp mip g ins mm = Except.ok (items, mm₂) →
      (∀ s, VItem.module_end s ∉ items) ∧ mm₂.num_modules = mm.num_modules := by
  intro ins
  induction ins with
  | nil =>
    intro mm items mm₂ h
    simp only [struct_in_loop, Except.ok.injEq, Prod.mk.injEq] at h
    obtain ⟨h1, h2⟩ := h
    subst h1; subst h2
    simp
  | cons i rest ih =>
    intro mm items mm₂ h
    simp only [struct_in_loop] at h
    split at h
    case h_2 => cases h
    case h_1 items1 mm1 hout =>
      split at h
      case h_2 => cases h
      case h_1 items2 mm₂' hrec =>
        simp only [Except.ok.injEq, Prod.mk.injEq] at h
        obtain ⟨h1, h2⟩ := h
        subst h1; subst h2
        obtain ⟨hmem1, hnum1⟩ := struct_out_loop_no_module_end lib tgate_model tin tout
          module_id tgate_module_id ip op mp mip g i g.outputsList mm items1 mm1 hout
        obtain ⟨hmem2, hnum2⟩ := ih mm1 items2 mm₂' hrec
        refine ⟨?_, ?_⟩
        · intro s hs
          rcases List.mem_append.mp hs with hs | hs
          · exact hmem1 s hs
          · exact hmem2 s hs
        · rw [hnum2, hnum1]

/-- A successful inner behavioral loop emits only case entries. -/
lemma behav_out_loop_no_module_end (ip orp mp : BasicPort) (g : MuxGraph)
    (d : Char) (i : Nat) :
    ∀ (outs : List Nat) (items : List VItem),
      behav_out_loop ip orp mp g d i outs = Except.ok items →
      ∀ s, VItem.module_end s ∉ items := by
  intro outs
  induction outs with
  | nil =>
    intro items h
    simp only [behav_out_loop, Except.ok.injEq] at h
    subst h
    simp
  | cons o rest ih =>
    intro items h
    simp only [behav_out_loop] at h
    cases hfe : g.find_edges i o with
    | nil =>
      rw [hfe] at h
      exact ih items h
    | cons e tail =>
      cases tail with
      | nil =>
        rw [hfe] at h
        cases hrec : behav_out_loop ip orp mp g d i rest with
        | error msg => rw [hrec] at h; cases h
        | ok items' =>
          rw [hrec] at h
          simp only [Except.ok.injEq] at h
          subst h
          intro s hs
          rcases List.mem_cons.mp hs with hs | hs
          · cases hs
          · exact ih items' hrec s hs
      | cons e2 tail2 =>
        rw [hfe] at h
        cases h

/-- A successful outer behavioral loop emits only case entries. -/
lemma behav_in_loop_no_module_end (ip orp mp : BasicPort) (g : MuxGraph) (d : Char) :
    ∀ (ins : List Nat) (items : List VItem),
      behav_in_loop ip orp mp g d ins = Except.ok items →
      ∀ s, VItem.module_end s ∉ items := by
  intro ins
  induction ins with
  | nil =>
    intro items h
    simp only [behav_in_loop, Except.ok.injEq] at h
    subst h
    simp
  | cons i rest ih =>
    intro items h
    simp only [behav_in_loop] at h
    cases hout : behav_out_loop ip orp mp g d i g.outputsList with
    | error msg => rw [hout] at h; cases h
    | ok items1 =>
      rw [hout] at h
      cases hrec : behav_in_loop ip orp mp g d rest with
      | error msg => rw [hrec] at h; cases h
      | ok items2 =>
        rw [hrec] at h
        simp only [Except.ok.injEq] at h
        subst h
        intro s hs
        rcases List.mem_append.mp hs with hs | hs
        · exact behav_out_loop_no_module_end ip orp mp g d i g.outputsList items1 hout s hs
        · exact ih items2 hrec s hs

/-- A successful behavioral body emits no module terminator. -/
lemma behav_body_no_module_end (ip op mp : BasicPort) (g : MuxGraph) (d : Char)
    (items : List VItem)
    (h : generate_verilog_cmos_mux_branch_body_behavioral ip op mp g d = Except.ok items) :
    ∀ s, VItem.module_end s ∉ items := by
  simp only [generate_verilog_cmos_mux_branch_body_behavioral] at h
  split at h
  case h_2 => cases h
  case h_1 entries hloop =>
    simp only [Except.ok.injEq] at h
    subst h
    intro s hs
    simp only [List.append_assoc, List.mem_append, List.mem_cons, List.mem_singleton] at hs
    rcases hs with hs | hs | hs
    · simp at hs
    · exact behav_in_loop_no_module_end ip (BasicPort.ofWidth "out_reg" g.num_outputs)
        mp g d g.inputsList entries hloop s hs
    · simp at hs

/-- Folding global-port additions over the manager keeps the module count. -/
lemma num_modules_foldl_add_port (id : Nat) (ps : List CircuitPort) :
    ∀ (mm : ModuleManager),
      (ps.foldl (fun acc p => acc.add_port id (BasicPort.ofWidth p.lib_name p.size)
        ModulePortCategory.global_port) mm).num_modules = mm.num_modules := by
  induction ps with
  | nil => intro mm; rfl
  | cons p rest ih =>
    intro mm
    simp only [List.foldl_cons]
    rw [ih, ModuleManager.num_modules_add_port]

/-- **C2 counterexample.**  The claim states that after a fully successful
run the completed netlist exists under the fixed base name; in fact a
successful pass over an (empty) library leaves the netlist under the
`.bak` staging name and never renames it to the base name. -/
theorem C2_counterexample :
    print_verilog_submodule_muxes ⟨[]⟩ [] [] "" "out/" = Except.ok c2_result_val ∧
    c2_result_val.fname = "out/muxes.v.bak" ∧
    c2_result_val.fname ≠ "out/" ++ muxes_verilog_file_name := by
  refine ⟨rfl, rfl, ?_⟩
  decide

/-- **C2** (amended): the generation pass writes the netlist to the output
file name extended with the `.bak` staging suffix and leaves it there —
no promotion to the base name happens, even after a fully successful
pass (the source defers the rename as a TODO). -/
theorem C2_staging_suffix (mm : ModuleManager) (mux_lib : MuxLibrary)
    (lib : CircuitLibrary) (vdir sdir : String) (r : MuxPassResult)
    (h : print_verilog_submodule_muxes mm mux_lib lib vdir sdir = Except.ok r) :
    r.fname = sdir ++ muxes_verilog_file_name ++ ".bak" ∧
    r.fname ≠ sdir ++ muxes_verilog_file_name := by
  simp only [print_verilog_submodule_muxes] at h
  split at h
  case h_2 => cases h
  case h_1 items mm' hloop =>
    simp only [Except.ok.injEq] at h
    subst h
    refine ⟨rfl, ?_⟩
    intro heq
    have hlen := congrArg String.length heq
    simp only [String.length_append] at hlen
    have h4 : (".bak" : String).length = 4 := rfl
    omega

/-- Witness for C2: the amended statement at a concrete successful pass. -/
theorem C2_staging_suffix_witness :
    c2w_result.fname = "" ++ muxes_verilog_file_name ++ ".bak" ∧
    c2w_result.fname ≠ "" ++ muxes_verilog_file_name :=
  C2_staging_suffix ⟨[]⟩ [] [] "" "" c2w_result rfl

/-- **C6.**  Branch-module generation dispatches on exactly the two
recognized design technologies: CMOS routes to the CMOS generator with
the model's structural/behavioral configuration flag, RRAM is an
unimplemented placeholder that emits nothing and registers nothing, and
any other technology value is a fatal error. -/
theorem C6_design_tech_dispatch (mm : ModuleManager) (lib : CircuitLibrary)
    (circuit_model mux_size : Nat) (g : MuxGraph) :
    match lib.design_tech_type circuit_model with
    | SpiceDesignTech.cmos =>
      generate_verilog_mux_branch_module mm lib circuit_model mux_size g =
        generate_verilog_cmos_mux_branch_module mm lib circuit_model
          (generate_verilog_mux_branch_subckt_name lib circuit_model mux_size
            g.num_inputs verilog_mux_basis_posfix)
          g (lib.dump_structural_verilog circuit_model)
    | SpiceDesignTech.rram =>
      generate_verilog_mux_branch_module mm lib circuit_model mux_size g =
        Except.ok ([], mm)
    | SpiceDesignTech.invalid =>
      generate_verilog_mux_branch_module mm lib circuit_model mux_size g =
        Except.error "Invalid design technology of multiplexer" := by
  cases h : lib.design_tech_type circuit_model <;>
    simp only [generate_verilog_mux_branch_module, h]

/-- **C7 counterexample.**  The claim states that a model whose pass-gate
sub-model is a primitive 2:1 logic-gate multiplexer is skipped without
error regardless of the model's design technology; with an unrecognized
design technology the generator instead aborts fatally before reaching
the skip. -/
theorem C7_counterexample :
    generate_verilog_mux_branch_module ⟨[]⟩ c7_lib 0 2 g2 =
      Except.error "Invalid design technology of multiplexer" := by
  rfl

/-- **C7** (amended): for both recognized design technologies (CMOS and
RRAM), a model whose pass-gate sub-model is a 2:1 logic-gate multiplexer
produces no module — nothing is emitted, nothing is registered, and no
error is raised; an unrecognized technology still aborts fatally. -/
theorem C7_mux2_skip (mm : ModuleManager) (lib : CircuitLibrary)
    (circuit_model mux_size : Nat) (g : MuxGraph)
    (hgate : lib.model_type (lib.pass_gate_logic_model circuit_model) = SpiceModelType.gate)
    (hmux2 : lib.gate_type (lib.pass_gate_logic_model circuit_model) = SpiceGateType.mux2)
    (htech : lib.design_tech_type circuit_model = SpiceDesignTech.cmos ∨
             lib.design_tech_type circuit_model = SpiceDesignTech.rram) :
    generate_verilog_mux_branch_module mm lib circuit_model mux_size g =
      Except.ok ([], mm) := by
  simp only [generate_verilog_mux_branch_module]
  rcases htech with h | h <;> rw [h]
  simp only [generate_verilog_cmos_mux_branch_module, hgate, hmux2, if_true, if_pos rfl]

/-- Witness for C7: a concrete CMOS model with a 2:1 logic-gate pass-gate
is skipped. -/
theorem C7_mux2_skip_witness :
    generate_verilog_mux_branch_module ⟨[]⟩ c7w_lib 0 2 g2 = Except.ok ([], ⟨[]⟩) :=
  C7_mux2_skip ⟨[]⟩ c7w_lib 0 2 g2 (by decide) (by decide) (Or.inl (by decide))

/-- **C5 counterexample.**  The claim states that every branch graph with
a number of outputs different from 1 raises the structural-invariant
violation when passed to CMOS emission; if the model's pass-gate
sub-model is a 2:1 logic gate, the skip fires before the shape check and
no violation is raised. -/
theorem C5_counterexample :
    generate_verilog_cmos_mux_branch_module ⟨[]⟩ c5_lib 0 "muxSkip_mux2_2_basis"
      g_out2 true = Except.ok ([], ⟨[]⟩) := by
  rfl

/-- **C5** (amended): for models whose pass-gate sub-model is not a logic
gate, a branch graph with a number of outputs different from 1 or a
number of levels different from 1 aborts generation fatally — nothing is
emitted and nothing is registered for that branch. -/
theorem C5_shape_violation (mm : ModuleManager) (lib : CircuitLibrary)
    (circuit_model : Nat) (module_name : String) (g : MuxGraph) (b : Bool)
    (hng : lib.model_type (lib.pass_gate_logic_model circuit_model) ≠ SpiceModelType.gate)
    (hshape : g.num_outputs ≠ 1 ∨ g.num_levels ≠ 1) :
    ∃ msg, generate_verilog_cmos_mux_branch_module mm lib circuit_model module_name g b =
      Except.error msg := by
  simp only [generate_verilog_cmos_mux_branch_module]
  rw [if_neg hng]
  by_cases hout : g.num_outputs = 1
  · have hlev : g.num_levels ≠ 1 := by
      rcases hshape with h | h
      · exact absurd hout h
      · exact h
    rw [if_neg (by simp [hout]), if_pos hlev]
    exact ⟨_, rfl⟩
  · rw [if_pos hout]
    exact ⟨_, rfl⟩

/-- Witness for C5: a concrete two-output branch graph on a model whose
pass-gate is a real transmission gate aborts generation. -/
theorem C5_shape_violation_witness :
    ∃ msg, generate_verilog_cmos_mux_branch_module ⟨[]⟩ exLib 0 "muxA_mux2_2_basis"
      g_out2 false = Except.error msg :=
  C5_shape_violation ⟨[]⟩ exLib 0 "muxA_mux2_2_basis" g_out2 false (by decide)
    (Or.inl (by decide))

/-- **C9.**  On every successful generation pass, the reserved-resource
update of the external configuration-memory-organization state occurs
exactly once, strictly after every emission to the netlist stream, and
passes the library-wide maximum multiplexer size as the reserved count
for both addressed dimensions. -/
theorem C9_reserved_blwl (mm : ModuleManager) (mux_lib : MuxLibrary)
    (lib : CircuitLibrary) (vdir sdir : String) (r : MuxPassResult)
    (h : print_verilog_submodule_muxes mm mux_lib lib vdir sdir = Except.ok r) :
    (r.events.filter PassEvent.is_update).length = 1 ∧
    r.events.getLast? =
      some (PassEvent.update_reserved_blwl mux_lib.max_mux_size mux_lib.max_mux_size) ∧
    (∀ e ∈ r.events.dropLast, PassEvent.is_update e = false) := by
  simp only [print_verilog_submodule_muxes] at h
  split at h
  case h_2 => cases h
  case h_1 items mm' hloop =>
    simp only [Except.ok.injEq] at h
    subst h
    refine ⟨?_, ?_, ?_⟩
    · show ((_ ++ [PassEvent.update_reserved_blwl _ _]).filter PassEvent.is_update).length = 1
      rw [List.filter_append, List.filter_map]
      have hcomp : (PassEvent.is_update ∘ PassEvent.emit) = fun _ => false := rfl
      rw [hcomp]
      simp [PassEvent.is_update]
    · exact List.getLast?_concat _
    · intro e he
      rw [show (MuxPassResult.events _) = _ ++
            [PassEvent.update_reserved_blwl mux_lib.max_mux_size mux_lib.max_mux_size]
          from rfl, List.dropLast_concat] at he
      obtain ⟨v, hv, rfl⟩ := List.mem_map.mp he
      rfl

/-- Witness for C9: the reserved-line property at a concrete successful
pass over a one-entry library with maximum multiplexer size 2. -/
theorem C9_reserved_blwl_witness :
    (c9_result.events.filter PassEvent.is_update).length = 1 ∧
    c9_result.events.getLast? =
      some (PassEvent.update_reserved_blwl c9_mux_lib.max_mux_size c9_mux_lib.max_mux_size) ∧
    (∀ e ∈ c9_result.events.dropLast, PassEvent.is_update e = false) :=
  C9_reserved_blwl ⟨[]⟩ c9_mux_lib exLib "" "" c9_result rfl

/-- A successful structural body emits no module terminator and creates
no module record (wrapper level). -/
lemma struct_body_no_module_end (mm : ModuleManager) (lib : CircuitLibrary)
    (tgate_model module_id : Nat) (ip op mp mip : BasicPort) (g : MuxGraph)
    (items : List VItem) (mm₂ : ModuleManager)
    (h : generate_verilog_cmos_mux_branch_body_structural mm lib tgate_model module_id
      ip op mp mip g = Except.ok (items, mm₂)) :
    (∀ s, VItem.module_end s ∉ items) ∧ mm₂.num_modules = mm.num_modules := by
  simp only [generate_verilog_cmos_mux_branch_body_structural] at h
  split at h
  case h_1 => cases h
  case h_2 tgate_module_id hfind =>
    split at h
    case isTrue => cases h
    case isFalse h3 =>
    split at h
    case isTrue => cases h
    case isFalse h1 =>
    split at h
    case h_2 => cases h
    case h_1 items' mm₂' hloop =>
      simp only [Except.ok.injEq, Prod.mk.injEq] at h
      obtain ⟨hi, hm⟩ := h
      subst hi; subst hm
      obtain ⟨hmem, hnum⟩ := struct_in_loop_no_module_end lib tgate_model _ _ module_id
        tgate_module_id ip op mp mip g g.inputsList mm items' mm₂' hloop
      refine ⟨?_, hnum⟩
      intro s hs
      rcases List.mem_cons.mp hs with hc | hc
      · cases hc
      · exact hmem s hc

/-- **C1 counterexample.**  The claim states that for a library holding
two multiplexers with the same circuit-model identity and graph shape,
exactly one module definition is emitted per distinct branch name, a
branch whose name is already present being skipped.  The pass instead
re-emits the definition for the second occurrence: the stream receives
two module definitions under the same name. -/
theorem C1_counterexample :
    print_verilog_submodule_muxes ⟨[]⟩ c1_mux_lib exLib "" "" = Except.ok c1_result ∧
    c1_result.content.count (VItem.module_end "muxA_mux2_2_basis") = 2 ∧
    c1_result.content.count (VItem.module_end "muxA_mux2_2_basis") ≠ 1 := by
  refine ⟨rfl, by decide, by decide⟩

/-- **C1** (amended): on the CMOS path for a non-logic-gate pass-gate
model, every successful branch generation emits exactly one module
definition to the stream — whether or not the branch name is already
present in the module manager — while registration stays deduplicated:
a new module record is created exactly when the name is not yet
present (`add_module` returns the existing record otherwise). -/
theorem C1_emission_per_occurrence (mm : ModuleManager) (lib : CircuitLibrary)
    (circuit_model : Nat) (module_name : String) (g : MuxGraph) (b : Bool)
    (items : List VItem) (mm' : ModuleManager)
    (hng : lib.model_type (lib.pass_gate_logic_model circuit_model) ≠ SpiceModelType.gate)
    (h : generate_verilog_cmos_mux_branch_module mm lib circuit_model module_name g b =
      Except.ok (items, mm')) :
    items.count (VItem.module_end module_name) = 1 ∧
    mm'.num_modules =
      (if mm.find_module module_name = none then mm.num_modules + 1
       else mm.num_modules) := by
  simp only [generate_verilog_cmos_mux_branch_module] at h
  rw [if_neg hng] at h
  split at h
  case isTrue => cases h
  case isFalse hout =>
  split at h
  case isTrue => cases h
  case isFalse hlev =>
  split at h
  case isTrue hb =>
    split at h
    case h_2 => cases h
    case h_1 body mm7 hbody =>
      simp only [Except.ok.injEq, Prod.mk.injEq] at h
      obtain ⟨hitems, hmm⟩ := h
      subst hitems; subst hmm
      obtain ⟨hmem, hnum⟩ := struct_body_no_module_end _ lib _ _ _ _ _ _ g body mm7 hbody
      constructor
      · have hbody0 : body.count (VItem.module_end module_name) = 0 :=
          List.count_eq_zero.mpr (hmem _)
        simp [List.count_cons, List.count_append, hbody0]
      · rw [hnum]
        simp only [ModuleManager.num_modules_add_port, num_modules_foldl_add_port,
          ModuleManager.num_modules_add_module]
  case isFalse hb =>
    split at h
    case isFalse => cases h
    case isTrue hlen =>
    split at h
    case isFalse => cases h
    case isTrue hstrlen =>
    split at h
    case h_2 => cases h
    case h_1 body hbody =>
      simp only [Except.ok.injEq, Prod.mk.injEq] at h
      obtain ⟨hitems, hmm⟩ := h
      subst hitems; subst hmm
      have hmem := behav_body_no_module_end _ _ _ g _ body hbody
      constructor
      · have hbody0 : body.count (VItem.module_end module_name) = 0 :=
          List.count_eq_zero.mpr (hmem _)
        simp [List.count_cons, List.count_append, hbody0]
      · simp only [ModuleManager.num_modules_add_port, num_modules_foldl_add_port,
          ModuleManager.num_modules_add_module]

/-- Witness for C1: regenerating the branch over a manager that already
holds the branch name still emits one module definition and creates no
new module record. -/
theorem C1_emission_per_occurrence_witness :
    c1w_out.fst.count (VItem.module_end "muxA_mux2_2_basis") = 1 ∧
    c1w_out.snd.num_modules =
      (if c1w_mm.find_module "muxA_mux2_2_basis" = none then c1w_mm.num_modules + 1
       else c1w_mm.num_modules) :=
  C1_emission_per_occurrence c1w_mm exLib 0 "muxA_mux2_2_basis" g2 false
    c1w_out.fst c1w_out.snd (by decide) rfl

/-- **C8 counterexample.**  The claim states that generation fails only
when more than one distinct default value is found, and proceeds when
exactly one distinct value is resolvable.  A model with two
non-mode-select configuration ports sharing the single default value 0
still aborts: the code counts ports, not distinct values. -/
theorem C8_counterexample :
    generate_verilog_cmos_mux_branch_module ⟨[]⟩ c8_lib 0 "muxB_mux2_2_basis" g2 false =
      Except.error "assert: exactly one non-mode-select sram port expected" := by
  rfl

/-- **C8** (amended): in behavioral mode the model must expose exactly one
non-mode-select configuration port — zero or several such ports abort
generation fatally even when they agree on one default value; when there
is exactly one such port and its default value renders as a single
character, that character is the shared default handed to the behavioral
body. -/
theorem C8_default_value (mm : ModuleManager) (lib : CircuitLibrary)
    (circuit_model : Nat) (module_name : String) (g : MuxGraph)
    (hng : lib.model_type (lib.pass_gate_logic_model circuit_model) ≠ SpiceModelType.gate)
    (hout : g.num_outputs = 1) (hlev : g.num_levels = 1) :
    (((lib.model_ports_by_type circuit_model SpicePortType.pSram).filter
        (fun q => !q.is_mode_select)).length ≠ 1 →
      generate_verilog_cmos_mux_branch_module mm lib circuit_model module_name g false =
        Except.error "assert: exactly one non-mode-select sram port expected") ∧
    (∀ p, (lib.model_ports_by_type circuit_model SpicePortType.pSram).filter
        (fun q => !q.is_mode_select) = [p] →
      (toString p.default_value).length = 1 →
      Except.map Prod.fst
          (generate_verilog_cmos_mux_branch_module mm lib circuit_model module_name g false) =
        Except.map
          (fun body => VItem.module_decl (mm.add_module module_name).fst :: body ++
            [VItem.module_end module_name])
          (generate_verilog_cmos_mux_branch_body_behavioral
            (BasicPort.ofWidth "in" g.num_inputs) (BasicPort.ofWidth "out" g.num_outputs)
            (BasicPort.ofWidth "mem" g.num_memory_bits) g
            ((toString p.default_value).toList.getD 0 'x'))) := by
  constructor
  · intro hlen
    simp only [generate_verilog_cmos_mux_branch_module]
    rw [if_neg hng, if_neg (by simp [hout]), if_neg (by simp [hlev])]
    simp only [Bool.false_eq_true, if_false]
    rw [if_neg hlen]
  · intro p hp hlenstr
    simp only [generate_verilog_cmos_mux_branch_module]
    rw [if_neg hng, if_neg (by simp [hout]), if_neg (by simp [hlev])]
    simp only [Bool.false_eq_true, if_false]
    rw [hp]
    simp only [List.length_singleton, if_pos rfl, List.getD_cons_zero]
    rw [if_pos hlenstr]
    cases hb : generate_verilog_cmos_mux_branch_body_behavioral
        (BasicPort.ofWidth "in" g.num_inputs) (BasicPort.ofWidth "out" g.num_outputs)
        (BasicPort.ofWidth "mem" g.num_memory_bits) g
        ((toString p.default_value).toList.getD 0 'x') with
    | ok body => simp [Except.map]
    | error msg => simp [Except.map]

/-- Witness for C8: at a concrete model with exactly one non-mode-select
configuration port of default 0, the amended statement holds. -/
theorem C8_default_value_witness :
    (((exLib.model_ports_by_type 0 SpicePortType.pSram).filter
        (fun q => !q.is_mode_select)).length ≠ 1 →
      generate_verilog_cmos_mux_branch_module ⟨[]⟩ exLib 0 "muxA_mux2_2_basis" g2 false =
        Except.error "assert: exactly one non-mode-select sram port expected") ∧
    (∀ p, (exLib.model_ports_by_type 0 SpicePortType.pSram).filter
        (fun q => !q.is_mode_select) = [p] →
      (toString p.default_value).length = 1 →
      Except.map Prod.fst
          (generate_verilog_cmos_mux_branch_module ⟨[]⟩ exLib 0 "muxA_mux2_2_basis" g2 false) =
        Except.map
          (fun body => VItem.module_decl ((⟨[]⟩ : ModuleManager).add_module
              "muxA_mux2_2_basis").fst :: body ++ [VItem.module_end "muxA_mux2_2_basis"])
          (generate_verilog_cmos_mux_branch_body_behavioral
            (BasicPort.ofWidth "in" g2.num_inputs) (BasicPort.ofWidth "out" g2.num_outputs)
            (BasicPort.ofWidth "mem" g2.num_memory_bits) g2
            ((toString p.default_value).toList.getD 0 'x'))) :=
  C8_default_value ⟨[]⟩ exLib 0 "muxA_mux2_2_basis" g2 (by decide) (by decide) (by decide)

/-- Appending a port to a module in range appends to its port list. -/
lemma module_ports_add_port_self (mm : ModuleManager) (id : Nat) (p : BasicPort)
    (c : ModulePortCategory) (hid : id < mm.modules.length) :
    (mm.add_port id p c).module_ports id = mm.module_ports id ++ [(p, c)] := by
  unfold ModuleManager.add_port ModuleManager.module_ports
  rw [ModuleManager.modules_getD_update_module, if_pos ⟨rfl, hid⟩]

/-- Folding the global-port additions appends the mapped global ports. -/
lemma module_ports_foldl_global (id : Nat) (ps : List CircuitPort) :
    ∀ (mm : ModuleManager), id < mm.modules.length →
      (ps.foldl (fun acc p => acc.add_port id (BasicPort.ofWidth p.lib_name p.size)
        ModulePortCategory.global_port) mm).module_ports id =
      mm.module_ports id ++ ps.map (fun p => (BasicPort.ofWidth p.lib_name p.size,
        ModulePortCategory.global_port)) := by
  induction ps with
  | nil => intro mm _; simp
  | cons p rest ih =>
    intro mm hid
    simp only [List.foldl_cons, List.map_cons]
    have hid' : id < (mm.add_port id (BasicPort.ofWidth p.lib_name p.size)
        ModulePortCategory.global_port).modules.length := by
      have := ModuleManager.num_modules_add_port mm id
        (BasicPort.ofWidth p.lib_name p.size) ModulePortCategory.global_port
      unfold ModuleManager.num_modules at this
      omega
    rw [ih _ hid', module_ports_add_port_self mm id _ _ hid]
    simp

/-- A fresh `add_module` appends an empty record under a new id. -/
lemma add_module_fresh (mm : ModuleManager) (n : String)
    (hfresh : mm.find_module n = none) :
    (mm.add_module n).fst = mm.modules.length ∧
    (mm.add_module n).snd.module_ports mm.modules.length = [] ∧
    mm.modules.length < (mm.add_module n).snd.modules.length := by
  unfold ModuleManager.add_module
  rw [hfresh]
  refine ⟨rfl, ?_, by simp⟩
  unfold ModuleManager.module_ports
  rw [List.getD_eq_getElem?_getD, List.getElem?_concat_length]
  rfl

/-- The inner structural loop never touches any module's port list. -/
lemma struct_out_loop_ports (lib : CircuitLibrary) (tgate_model : Nat)
    (tin tout : List CircuitPort) (module_id tgate_module_id : Nat)
    (ip op mp mip : BasicPort) (g : MuxGraph) (i : Nat) :
    ∀ (outs : List Nat) (mm : ModuleManager) (items : List VItem) (mm₂ : ModuleManager),
      struct_out_loop lib tgate_model tin tout module_id tgate_module_id
        ip op mp mip g i outs mm = Except.ok (items, mm₂) →
      ∀ x, mm₂.module_ports x = mm.module_ports x := by
  intro outs
  induction outs with
  | nil =>
    intro mm items mm₂ h
    simp only [struct_out_loop, Except.ok.injEq, Prod.mk.injEq] at h
    obtain ⟨-, h2⟩ := h
    subst h2
    intro x; rfl
  | cons o rest ih =>
    intro mm items mm₂ h
    simp only [struct_out_loop] at h
    cases hfe : g.find_edges i o with
    | nil =>
      rw [hfe] at h
      exact ih mm items mm₂ h
    | cons e tail =>
      cases tail with
      | nil =>
        rw [hfe] at h
        cases hrec : struct_out_loop lib tgate_model tin tout module_id tgate_module_id
            ip op mp mip g i rest (mm.add_child_module module_id tgate_module_id) with
        | error msg => rw [hrec] at h; cases h
        | ok pr =>
          obtain ⟨items', mm₂'⟩ := pr
          rw [hrec] at h
          simp only [Except.ok.injEq, Prod.mk.injEq] at h
          obtain ⟨-, h2⟩ := h
          subst h2
          intro x
          rw [ih _ items' mm₂' hrec x, ModuleManager.module_ports_add_child_module]
      | cons e2 tail2 =>
        rw [hfe] at h
        cases h

/-- The outer structural loop never touches any module's port list. -/
lemma struct_in_loop_ports (lib : CircuitLibrary) (tgate_model : Nat)
    (tin tout : List CircuitPort) (module_id tgate_module_id : Nat)
    (ip op mp mip : BasicPort) (g : MuxGraph) :
    ∀ (ins : List Nat) (mm : ModuleManager) (items : List VItem) (mm₂ : ModuleManager),
      struct_in_loop lib tgate_model tin tout module_id tgate_module_id
        ip op mp mip g ins mm = Except.ok (items, mm₂) →
      ∀ x, mm₂.module_ports x = mm.module_ports x := by
  intro ins
  induction ins with
  | nil =>
    intro mm items mm₂ h
    simp only [struct_in_loop, Except.ok.injEq, Prod.mk.injEq] at h
    obtain ⟨-, h2⟩ := h
    subst h2
    intro x; rfl
  | cons i rest ih =>
    intro mm items mm₂ h
    simp only [struct_in_loop] at h
    split at h
    case h_2 => cases h
    case h_1 items1 mm1 hout =>
      split at h
      case h_2 => cases h
      case h_1 items2 mm₂' hrec =>
        simp only [Except.ok.injEq, Prod.mk.injEq] at h
        obtain ⟨-, h2⟩ := h
        subst h2
        intro x
        rw [ih mm1 items2 mm₂' hrec x,
          struct_out_loop_ports lib tgate_model tin tout module_id tgate_module_id
            ip op mp mip g i g.outputsList mm items1 mm1 hout x]

/-- The structural body never touches any module's port list. -/
lemma struct_body_ports (mm : ModuleManager) (lib : CircuitLibrary)
    (tgate_model module_id : Nat) (ip op mp mip : BasicPort) (g : MuxGraph)
    (items : List VItem) (mm₂ : ModuleManager)
    (h : generate_verilog_cmos_mux_branch_body_structural mm lib tgate_model module_id
      ip op mp mip g = Except.ok (items, mm₂)) :
    ∀ x, mm₂.module_ports x = mm.module_ports x := by
  simp only [generate_verilog_cmos_mux_branch_body_structural] at h
  split at h
  case h_1 => cases h
  case h_2 tgate_module_id hfind =>
    split at h
    case isTrue => cases h
    case isFalse h3 =>
    split at h
    case isTrue => cases h
    case isFalse h1 =>
    split at h
    case h_2 => cases h
    case h_1 items' mm₂' hloop =>
      simp only [Except.ok.injEq, Prod.mk.injEq] at h
      obtain ⟨-, h2⟩ := h
      subst h2
      exact struct_in_loop_ports lib tgate_model _ _ module_id tgate_module_id
        ip op mp mip g g.inputsList mm items' mm₂' hloop

/-- Port registration chain of the CMOS branch generator: starting from a
fresh module, the globals fold followed by the four fixed ports yields
exactly the claimed interface, in order. -/
lemma cmos_ports_chain (mm : ModuleManager) (module_name : String)
    (lib : CircuitLibrary) (tgate_model : Nat) (g : MuxGraph)
    (hfresh : mm.find_module module_name = none) :
    (((((List.foldl (fun acc p => acc.add_port (mm.add_module module_name).fst
            (BasicPort.ofWidth p.lib_name p.size) ModulePortCategory.global_port)
          (mm.add_module module_name).snd
          (lib.model_global_input_ports tgate_model)).add_port
        (mm.add_module module_name).fst (BasicPort.ofWidth "in" g.num_inputs)
          ModulePortCategory.input_port).add_port
        (mm.add_module module_name).fst (BasicPort.ofWidth "out" g.num_outputs)
          ModulePortCategory.output_port).add_port
        (mm.add_module module_name).fst (BasicPort.ofWidth "mem" g.num_memory_bits)
          ModulePortCategory.input_port).add_port
        (mm.add_module module_name).fst (BasicPort.ofWidth "mem_inv" g.num_memory_bits)
          ModulePortCategory.input_port).module_ports mm.num_modules =
      cmos_branch_module_ports lib tgate_model g := by
  obtain ⟨hfst, hports0, hlt⟩ := add_module_fresh mm module_name hfresh
  have hnum : mm.num_modules = mm.modules.length := rfl
  have hid1 : (mm.add_module module_name).fst < (mm.add_module module_name).snd.modules.length := by
    rw [hfst]; exact hlt
  have hfold := module_ports_foldl_global (mm.add_module module_name).fst
    (lib.model_global_input_ports tgate_model) (mm.add_module module_name).snd hid1
  have hfoldlen : ∀ (mm0 : ModuleManager),
      (List.foldl (fun acc p => acc.add_port (mm.add_module module_name).fst
        (BasicPort.ofWidth p.lib_name p.size) ModulePortCategory.global_port)
        mm0 (lib.model_global_input_ports tgate_model)).modules.length =
      mm0.modules.length := by
    intro mm0
    have := num_modules_foldl_add_port (mm.add_module module_name).fst
      (lib.model_global_input_ports tgate_model) mm0
    unfold ModuleManager.num_modules at this
    exact this
  have hlen2 : (mm.add_module module_name).fst <
      (List.foldl (fun acc p => acc.add_port (mm.add_module module_name).fst
        (BasicPort.ofWidth p.lib_name p.size) ModulePortCategory.global_port)
        (mm.add_module module_name).snd (lib.model_global_input_ports tgate_model)).modules.length := by
    rw [hfoldlen]; exact hid1
  have hlen3 : ∀ (mm0 : ModuleManager) (p : BasicPort) (c : ModulePortCategory),
      (mm0.add_port (mm.add_module module_name).fst p c).modules.length = mm0.modules.length := by
    intro mm0 p c
    have := ModuleManager.num_modules_add_port mm0 (mm.add_module module_name).fst p c
    unfold ModuleManager.num_modules at this
    exact this
  rw [hnum, ← hfst]
  rw [module_ports_add_port_self _ _ _ _ (by rw [hlen3, hlen3, hlen3]; exact hlen2)]
  rw [module_ports_add_port_self _ _ _ _ (by rw [hlen3, hlen3]; exact hlen2)]
  rw [module_ports_add_port_self _ _ _ _ (by rw [hlen3]; exact hlen2)]
  rw [module_ports_add_port_self _ _ _ _ hlen2]
  rw [hfold]
  rw [hfst, hports0]
  simp [cmos_branch_module_ports, List.append_assoc]

/-- **C10.**  For every branch graph that passes the shape check on the
CMOS path with a fresh module name, the registered module interface is
the same in structural and behavioral mode and its ports are added in a
fixed order: one global port per global input port of the pass-gate
model, then `in`, `out`, `mem` and `mem_inv` — `mem_inv` included even
in behavioral mode. -/
theorem C10_branch_interface (mm : ModuleManager) (lib : CircuitLibrary)
    (circuit_model : Nat) (module_name : String) (g : MuxGraph) (b : Bool)
    (items : List VItem) (mm' : ModuleManager)
    (hng : lib.model_type (lib.pass_gate_logic_model circuit_model) ≠ SpiceModelType.gate)
    (hfresh : mm.find_module module_name = none)
    (h : generate_verilog_cmos_mux_branch_module mm lib circuit_model module_name g b =
      Except.ok (items, mm')) :
    mm'.module_ports mm.num_modules =
      cmos_branch_module_ports lib (lib.pass_gate_logic_model circuit_model) g := by
  simp only [generate_verilog_cmos_mux_branch_module] at h
  rw [if_neg hng] at h
  split at h
  case isTrue => cases h
  case isFalse hout =>
  split at h
  case isTrue => cases h
  case isFalse hlev =>
  split at h
  case isTrue hb =>
    split at h
    case h_2 => cases h
    case h_1 body mm7 hbody =>
      simp only [Except.ok.injEq, Prod.mk.injEq] at h
      obtain ⟨-, hmm⟩ := h
      subst hmm
      rw [struct_body_ports _ lib _ _ _ _ _ _ g body mm7 hbody]
      exact cmos_ports_chain mm module_name lib (lib.pass_gate_logic_model circuit_model)
        g hfresh
  case isFalse hb =>
    split at h
    case isFalse => cases h
    case isTrue hlen =>
    split at h
    case isFalse => cases h
    case isTrue hstrlen =>
    split at h
    case h_2 => cases h
    case h_1 body hbody =>
      simp only [Except.ok.injEq, Prod.mk.injEq] at h
      obtain ⟨-, hmm⟩ := h
      subst hmm
      exact cmos_ports_chain mm module_name lib (lib.pass_gate_logic_model circuit_model)
        g hfresh

/-- Witness for C10: the registered interface of the concrete behavioral
branch over an empty module manager. -/
theorem C10_branch_interface_witness :
    (genOkResult (generate_verilog_cmos_mux_branch_module ⟨[]⟩ exLib 0
      "muxA_mux2_2_basis" g2 false)).snd.module_ports (⟨[]⟩ : ModuleManager).num_modules =
      cmos_branch_module_ports exLib (exLib.pass_gate_logic_model 0) g2 :=
  C10_branch_interface ⟨[]⟩ exLib 0 "muxA_mux2_2_basis" g2 false
    (genOkResult (generate_verilog_cmos_mux_branch_module ⟨[]⟩ exLib 0
      "muxA_mux2_2_basis" g2 false)).fst
    (genOkResult (generate_verilog_cmos_mux_branch_module ⟨[]⟩ exLib 0
      "muxA_mux2_2_basis" g2 false)).snd
    (by decide) (by decide) rfl

/-- The case literal built by overwriting one position of the default-filled
string equals the claim-side positionwise description. -/
lemma replicate_set_eq_range_map (w m : Nat) (d c : Char) :
    (List.replicate w d).set m c =
      (List.range w).map (fun k => if k = m then c else d) := by
  apply List.ext_getElem (by simp)
  intro i h1 h2
  simp only [List.getElem_set, List.getElem_map, List.getElem_range, List.getElem_replicate]
  by_cases him : m = i
  · simp [him]
  · rw [if_neg him, if_neg (fun hc : i = m => him hc.symm)]

/-- Closed form of the inner behavioral loop. -/
lemma behav_out_loop_eq (ip orp mp : BasicPort) (g : MuxGraph) (d : Char) (i : Nat) :
    ∀ (outs : List Nat), (∀ o ∈ outs, (g.find_edges i o).length ≤ 1) →
      behav_out_loop ip orp mp g d i outs =
        Except.ok (outs.filterMap (behav_code_entry ip orp mp g d i)) := by
  intro outs
  induction outs with
  | nil => intro _; rfl
  | cons o rest ih =>
    intro huniq
    have huniq_rest : ∀ o' ∈ rest, (g.find_edges i o').length ≤ 1 :=
      fun o' h' => huniq o' (List.mem_cons_of_mem _ h')
    simp only [behav_out_loop, List.filterMap_cons, behav_code_entry]
    cases hfe : g.find_edges i o with
    | nil =>
      rw [ih huniq_rest]
    | cons e tail =>
      cases tail with
      | nil =>
        rw [ih huniq_rest]
      | cons e2 t2 =>
        exfalso
        have := huniq o (List.mem_cons_self _ _)
        rw [hfe] at this
        simp at this

/-- Closed form of the outer behavioral loop. -/
lemma behav_in_loop_eq (ip orp mp : BasicPort) (g : MuxGraph) (d : Char) :
    ∀ (ins : List Nat),
      (∀ i ∈ ins, ∀ o ∈ g.outputsList, (g.find_edges i o).length ≤ 1) →
      behav_in_loop ip orp mp g d ins =
        Except.ok (ins.flatMap (fun i =>
          g.outputsList.filterMap (behav_code_entry ip orp mp g d i))) := by
  intro ins
  induction ins with
  | nil => intro _; rfl
  | cons i rest ih =>
    intro huniq
    simp only [behav_in_loop, List.flatMap_cons]
    rw [behav_out_loop_eq ip orp mp g d i g.outputsList
      (fun o ho => huniq i (List.mem_cons_self _ _) o ho)]
    rw [ih (fun i' h' o ho => huniq i' (List.mem_cons_of_mem _ h') o ho)]

/-- Summing an indicator over `range n` counts whether the index is hit. -/
lemma sum_range_indicator (a k : Nat) :
    ∀ (n : Nat), ((List.range n).map (fun i => if a = i then k else 0)).sum =
      if a < n then k else 0 := by
  intro n
  induction n with
  | zero => simp
  | succ n ih =>
    rw [List.range_succ, List.map_append, List.sum_append, ih]
    simp only [List.map_cons, List.map_nil, List.sum_cons, List.sum_nil]
    split_ifs <;> omega

/-- The number of edges of a well-formed edge list equals the double sum,
over all (input, output) index pairs, of the per-pair edge counts. -/
lemma double_count (I O : Nat) :
    ∀ (es : List MuxEdge), (∀ e ∈ es, e.input < I ∧ e.output < O) →
      ((List.range I).map (fun i => ((List.range O).map
        (fun o => (es.filter (fun e => e.input == i && e.output == o)).length)).sum)).sum
      = es.length := by
  intro es
  induction es with
  | nil => simp
  | cons e rest ih =>
    intro hwf
    have hwf_rest : ∀ e' ∈ rest, e'.input < I ∧ e'.output < O :=
      fun e' h' => hwf e' (List.mem_cons_of_mem _ h')
    obtain ⟨hin, hout⟩ := hwf e (List.mem_cons_self _ _)
    have hfil : ∀ i o,
        ((e :: rest).filter (fun e' => e'.input == i && e'.output == o)).length =
        (if e.output = o then (if e.input = i then 1 else 0) else 0) +
          (rest.filter (fun e' => e'.input == i && e'.output == o)).length := by
      intro i o
      rw [List.filter_cons]
      by_cases h1 : e.input = i <;> by_cases h2 : e.output = o <;> simp [h1, h2] <;> omega
    simp only [hfil, List.sum_map_add]
    simp only [sum_range_indicator]
    simp only [hout, if_true]
    rw [sum_range_indicator, if_pos hin, ih hwf_rest]
    simp [Nat.add_comm]

/-- `countP` as a sum of indicators. -/
lemma countP_eq_sum_map (p : β → Bool) :
    ∀ (l : List β), l.countP p = (l.map (fun b => if p b then 1 else 0)).sum := by
  intro l
  induction l with
  | nil => simp
  | cons b l ih =>
    simp [List.countP_cons, ih]
    omega

/-- The behavioral case table has exactly one entry per edge of a
well-formed branch graph. -/
lemma spec_behav_case_entries_length (ip orp : BasicPort) (w : Nat) (d : Char)
    (g : MuxGraph)
    (hwf : ∀ e ∈ g.edges, e.input < g.num_inputs ∧ e.output < g.num_outputs)
    (huniq : ∀ i < g.num_inputs, ∀ o < g.num_outputs, (g.find_edges i o).length ≤ 1) :
    (spec_behav_case_entries ip orp w d g).length = g.edges.length := by
  unfold spec_behav_case_entries
  rw [List.flatMap, List.length_flatten, List.map_map]
  have hinner : ((g.inputsList).map
      (List.length ∘ fun i => g.outputsList.filterMap (spec_behav_entry ip orp w d g i))) =
      (g.inputsList).map (fun i =>
        ((g.outputsList).map (fun o => (g.find_edges i o).length)).sum) := by
    apply List.map_congr_left
    intro i hi
    have hi' : i < g.num_inputs := List.mem_range.mp hi
    simp only [Function.comp]
    rw [List.length_filterMap_eq_countP, countP_eq_sum_map]
    congr 1
    apply List.map_congr_left
    intro o ho
    have ho' : o < g.num_outputs := List.mem_range.mp ho
    have hle := huniq i hi' o ho'
    cases hfe : g.find_edges i o with
    | nil => simp [spec_behav_entry, hfe]
    | cons e tail =>
      cases tail with
      | nil => simp [spec_behav_entry, hfe]
      | cons e2 t2 =>
        exfalso
        rw [hfe] at hle
        simp at hle
  rw [hinner]
  unfold MuxGraph.inputsList MuxGraph.outputsList
  have := double_count g.num_inputs g.num_outputs g.edges hwf
  simp only [MuxGraph.find_edges]
  exact this

/-- **C4.**  In behavioral mode, for a single-output single-level branch
graph with well-formed edges (at most one per pair, endpoints in range),
the emitted body is: the output register declaration, the case table
with exactly one entry per edge — each entry a memory-width literal
equal to the shared default everywhere except the edge's memory bit,
forced to '1' (non-inverted) or '0' (inverted), assigning the input
slice to the register — an explicit default case driving every
output-register bit to 'z', and the final assignment of the register to
the output port. -/
theorem C4_behavioral_case_table (ip op mp : BasicPort) (g : MuxGraph) (d : Char)
    (hout : g.num_outputs = 1) (hlev : g.num_levels = 1)
    (hwf : ∀ e ∈ g.edges, e.input < g.num_inputs ∧ e.output < g.num_outputs)
    (huniq : ∀ i < g.num_inputs, ∀ o < g.num_outputs, (g.find_edges i o).length ≤ 1) :
    generate_verilog_cmos_mux_branch_body_behavioral ip op mp g d =
      Except.ok ([VItem.comment "---- Behavioral-level description -----",
        VItem.reg_decl (BasicPort.ofWidth "out_reg" g.num_outputs),
        VItem.always_sens [ip, mp],
        VItem.case_head mp] ++
        spec_behav_case_entries ip (BasicPort.ofWidth "out_reg" g.num_outputs)
          mp.get_width d g ++
        [VItem.case_default_entry (BasicPort.ofWidth "out_reg" g.num_outputs)
          (List.replicate g.num_outputs 'z'),
         VItem.case_close,
         VItem.cont_assign op (BasicPort.ofWidth "out_reg" g.num_outputs)]) ∧
    (spec_behav_case_entries ip (BasicPort.ofWidth "out_reg" g.num_outputs)
      mp.get_width d g).length = g.edges.length := by
  constructor
  · simp only [generate_verilog_cmos_mux_branch_body_behavioral]
    rw [behav_in_loop_eq ip (BasicPort.ofWidth "out_reg" g.num_outputs) mp g d g.inputsList
      (fun i hi o ho => huniq i (List.mem_range.mp hi) o (List.mem_range.mp ho))]
    have hentry : ∀ i o,
        behav_code_entry ip (BasicPort.ofWidth "out_reg" g.num_outputs) mp g d i o =
        spec_behav_entry ip (BasicPort.ofWidth "out_reg" g.num_outputs)
          mp.get_width d g i o := by
      intro i o
      unfold behav_code_entry spec_behav_entry
      cases hfe : g.find_edges i o with
      | nil => rfl
      | cons e tail =>
        cases tail with
        | nil =>
          cases hinv : e.inv_mem <;> simp [hinv, replicate_set_eq_range_map]
        | cons e2 t2 => rfl
    have hfun : (fun i => g.outputsList.filterMap
        (behav_code_entry ip (BasicPort.ofWidth "out_reg" g.num_outputs) mp g d i)) =
        (fun i => g.outputsList.filterMap
          (spec_behav_entry ip (BasicPort.ofWidth "out_reg" g.num_outputs)
            mp.get_width d g i)) :=
      funext fun i => List.filterMap_congr (fun o _ => hentry i o)
    unfold spec_behav_case_entries
    rw [hfun]
  · exact spec_behav_case_entries_length ip (BasicPort.ofWidth "out_reg" g.num_outputs)
      mp.get_width d g hwf huniq

/-- Witness for C4: the spec's 4:1 example, shared default '0'. -/
theorem C4_behavioral_case_table_witness :
    generate_verilog_cmos_mux_branch_body_behavioral (BasicPort.ofWidth "in" 4)
      (BasicPort.ofWidth "out" 1) (BasicPort.ofWidth "mem" 4) g4 '0' =
      Except.ok ([VItem.comment "---- Behavioral-level description -----",
        VItem.reg_decl (BasicPort.ofWidth "out_reg" g4.num_outputs),
        VItem.always_sens [BasicPort.ofWidth "in" 4, BasicPort.ofWidth "mem" 4],
        VItem.case_head (BasicPort.ofWidth "mem" 4)] ++
        spec_behav_case_entries (BasicPort.ofWidth "in" 4)
          (BasicPort.ofWidth "out_reg" g4.num_outputs)
          (BasicPort.ofWidth "mem" 4).get_width '0' g4 ++
        [VItem.case_default_entry (BasicPort.ofWidth "out_reg" g4.num_outputs)
          (List.replicate g4.num_outputs 'z'),
         VItem.case_close,
         VItem.cont_assign (BasicPort.ofWidth "out" 1)
           (BasicPort.ofWidth "out_reg" g4.num_outputs)]) ∧
    (spec_behav_case_entries (BasicPort.ofWidth "in" 4)
      (BasicPort.ofWidth "out_reg" g4.num_outputs)
      (BasicPort.ofWidth "mem" 4).get_width '0' g4).length = g4.edges.length :=
  C4_behavioral_case_table (BasicPort.ofWidth "in" 4) (BasicPort.ofWidth "out" 1)
    (BasicPort.ofWidth "mem" 4) g4 '0' (by decide) (by decide) (by decide) (by decide)

/-- Closed form of the inner structural loop: it emits exactly the
per-pair instances and only adds the child relation. -/
lemma struct_out_loop_eq (lib : CircuitLibrary) (tgate_model : Nat)
    (tin tout : List CircuitPort) (module_id tgate_module_id : Nat)
    (ip op mp mip : BasicPort) (g : MuxGraph) (i : Nat) :
    ∀ (outs : List Nat) (mm : ModuleManager),
      (∀ o ∈ outs, (g.find_edges i o).length ≤ 1) →
      ∃ mm₂,
        struct_out_loop lib tgate_model tin tout module_id tgate_module_id
          ip op mp mip g i outs mm =
          Except.ok (outs.filterMap (struct_code_inst lib tgate_model tin tout
            module_id tgate_module_id ip op mp mip g i), mm₂) ∧
        mm₂.num_modules = mm.num_modules ∧
        (∀ x c, c ∈ mm.module_children x → c ∈ mm₂.module_children x) ∧
        ((∃ o ∈ outs, ∃ e, g.find_edges i o = [e]) → module_id < mm.num_modules →
          tgate_module_id ∈ mm₂.module_children module_id) := by
  intro outs
  induction outs with
  | nil =>
    intro mm _
    exact ⟨mm, rfl, rfl, fun x c hc => hc, fun h _ => absurd h (by simp)⟩
  | cons o rest ih =>
    intro mm huniq
    have huniq_rest : ∀ o' ∈ rest, (g.find_edges i o').length ≤ 1 :=
      fun o' h' => huniq o' (List.mem_cons_of_mem _ h')
    simp only [struct_out_loop, List.filterMap_cons, struct_code_inst]
    cases hfe : g.find_edges i o with
    | nil =>
      obtain ⟨mm₂, heq, hnum, hmono, hedge⟩ := ih mm huniq_rest
      refine ⟨mm₂, heq, hnum, hmono, ?_⟩
      rintro ⟨o', ho', e, he⟩ hid
      rcases List.mem_cons.mp ho' with rfl | ho'
      · rw [hfe] at he; cases he
      · exact hedge ⟨o', ho', e, he⟩ hid
    | cons e tail =>
      cases tail with
      | nil =>
        obtain ⟨mm₂, heq, hnum, hmono, hedge⟩ :=
          ih (mm.add_child_module module_id tgate_module_id) huniq_rest
        refine ⟨mm₂, ?_, ?_, ?_, ?_⟩
        · rw [heq]
        · rw [hnum, ModuleManager.num_modules_add_child_module]
        · intro x c hc
          exact hmono x c
            (ModuleManager.mem_children_add_child_module_of_mem mm module_id
              tgate_module_id x c hc)
        · intro _ hid
          exact hmono module_id tgate_module_id
            (ModuleManager.mem_children_add_child_module mm module_id tgate_module_id hid)
      | cons e2 t2 =>
        exfalso
        have := huniq o (List.mem_cons_self _ _)
        rw [hfe] at this
        simp at this

/-- Closed form of the outer structural loop. -/
lemma struct_in_loop_eq (lib : CircuitLibrary) (tgate_model : Nat)
    (tin tout : List CircuitPort) (module_id tgate_module_id : Nat)
    (ip op mp mip : BasicPort) (g : MuxGraph) :
    ∀ (ins : List Nat) (mm : ModuleManager),
      (∀ i ∈ ins, ∀ o ∈ g.outputsList, (g.find_edges i o).length ≤ 1) →
      ∃ mm₂,
        struct_in_loop lib tgate_model tin tout module_id tgate_module_id
          ip op mp mip g ins mm =
          Except.ok (ins.flatMap (fun i => g.outputsList.filterMap
            (struct_code_inst lib tgate_model tin tout module_id tgate_module_id
              ip op mp mip g i)), mm₂) ∧
        mm₂.num_modules = mm.num_modules ∧
        (∀ x c, c ∈ mm.module_children x → c ∈ mm₂.module_children x) ∧
        ((∃ i ∈ ins, ∃ o ∈ g.outputsList, ∃ e, g.find_edges i o = [e]) →
          module_id < mm.num_modules →
          tgate_module_id ∈ mm₂.module_children module_id) := by
  intro ins
  induction ins with
  | nil =>
    intro mm _
    exact ⟨mm, rfl, rfl, fun x c hc => hc, fun h _ => absurd h (by simp)⟩
  | cons i rest ih =>
    intro mm huniq
    obtain ⟨mm1, heq1, hnum1, hmono1, hedge1⟩ :=
      struct_out_loop_eq lib tgate_model tin tout module_id tgate_module_id
        ip op mp mip g i g.outputsList mm
        (fun o ho => huniq i (List.mem_cons_self _ _) o ho)
    obtain ⟨mm₂, heq2, hnum2, hmono2, hedge2⟩ :=
      ih mm1 (fun i' h' o ho => huniq i' (List.mem_cons_of_mem _ h') o ho)
    refine ⟨mm₂, ?_, ?_, ?_, ?_⟩
    · simp only [struct_in_loop, List.flatMap_cons, heq1, heq2]
    · rw [hnum2, hnum1]
    · intro x c hc
      exact hmono2 x c (hmono1 x c hc)
    · rintro ⟨i', hi', o', ho', e, he⟩ hid
      rcases List.mem_cons.mp hi' with rfl | hi'
      · exact hmono2 module_id tgate_module_id (hedge1 ⟨o', ho', e, he⟩ hid)
      · have hid1 : module_id < mm1.num_modules := by rw [hnum1]; exact hid
        exact hedge2 ⟨i', hi', o', ho', e, he⟩ hid1

/-- Four insertions with pairwise distinct keys into the empty map build
the four-entry association list in insertion order. -/
lemma mapInsert_four (n0 n1 n2 n3 : String)
    (h01 : n0 ≠ n1) (h02 : n0 ≠ n2) (h03 : n0 ≠ n3)
    (h12 : n1 ≠ n2) (h13 : n1 ≠ n3) (h23 : n2 ≠ n3) :
    ∀ (v0 v1 v2 v3 : BasicPort),
      mapInsert (mapInsert (mapInsert (mapInsert [] n0 v0) n1 v1) n2 v2) n3 v3 =
        [(n0, v0), (n1, v1), (n2, v2), (n3, v3)] := by
  intro v0 v1 v2 v3
  simp [mapInsert, h01, h02, h03, h12, h13, h23]

/-- **C3.**  In structural mode, for a single-output single-level branch
graph with at most one edge per pair, the emitted body consists of
exactly one pass-gate instance per (input, output) pair connected by an
edge and none for unconnected pairs; each instance wires the input slice
to the gate's data input, the output slice to its data output, and the
mem / mem_inv slices at the edge's memory bit to the two control
terminals — in that order for a non-inverted edge, swapped for an
inverted one — and each instantiation records the pass-gate module as a
child of the branch module. -/
theorem C3_structural_instances (mm : ModuleManager) (lib : CircuitLibrary)
    (tgate_model module_id tgate_module_id : Nat)
    (ip op mp mip : BasicPort) (g : MuxGraph)
    (hout : g.num_outputs = 1) (hlev : g.num_levels = 1)
    (hid : module_id < mm.num_modules)
    (hfind : mm.find_module (lib.model_name tgate_model) = some tgate_module_id)
    (h3 : (lib.model_ports_by_type tgate_model SpicePortType.pInput).length = 3)
    (h1o : (lib.model_ports_by_type tgate_model SpicePortType.pOutput).length = 1)
    (hn01 : ((lib.model_ports_by_type tgate_model SpicePortType.pInput).getD 0 default).lib_name ≠
      ((lib.model_ports_by_type tgate_model SpicePortType.pOutput).getD 0 default).lib_name)
    (hn02 : ((lib.model_ports_by_type tgate_model SpicePortType.pInput).getD 0 default).lib_name ≠
      ((lib.model_ports_by_type tgate_model SpicePortType.pInput).getD 1 default).lib_name)
    (hn03 : ((lib.model_ports_by_type tgate_model SpicePortType.pInput).getD 0 default).lib_name ≠
      ((lib.model_ports_by_type tgate_model SpicePortType.pInput).getD 2 default).lib_name)
    (hn12 : ((lib.model_ports_by_type tgate_model SpicePortType.pOutput).getD 0 default).lib_name ≠
      ((lib.model_ports_by_type tgate_model SpicePortType.pInput).getD 1 default).lib_name)
    (hn13 : ((lib.model_ports_by_type tgate_model SpicePortType.pOutput).getD 0 default).lib_name ≠
      ((lib.model_ports_by_type tgate_model SpicePortType.pInput).getD 2 default).lib_name)
    (hn23 : ((lib.model_ports_by_type tgate_model SpicePortType.pInput).getD 1 default).lib_name ≠
      ((lib.model_ports_by_type tgate_model SpicePortType.pInput).getD 2 default).lib_name)
    (huniq : ∀ i < g.num_inputs, ∀ o < g.num_outputs, (g.find_edges i o).length ≤ 1) :
    ∃ mm', generate_verilog_cmos_mux_branch_body_structural mm lib tgate_model module_id
        ip op mp mip g =
        Except.ok (VItem.comment "---- Structure-level description -----" ::
          spec_structural_instances lib tgate_model module_id tgate_module_id
            ip op mp mip g, mm') ∧
      ((∃ i ∈ g.inputsList, ∃ o ∈ g.outputsList, ∃ e, g.find_edges i o = [e]) →
        tgate_module_id ∈ mm'.module_children module_id) := by
  obtain ⟨mm₂, heq, hnum, hmono, hedge⟩ :=
    struct_in_loop_eq lib tgate_model (lib.model_ports_by_type tgate_model SpicePortType.pInput)
      (lib.model_ports_by_type tgate_model SpicePortType.pOutput) module_id tgate_module_id
      ip op mp mip g g.inputsList mm
      (fun i hi o ho => huniq i (List.mem_range.mp hi) o (List.mem_range.mp ho))
  refine ⟨mm₂, ?_, fun hex => hedge hex hid⟩
  simp only [generate_verilog_cmos_mux_branch_body_structural, hfind]
  rw [if_neg (by simp [h3]), if_neg (by simp [h1o])]
  simp only [heq]
  have hinst : ∀ i o, struct_code_inst lib tgate_model
      (lib.model_ports_by_type tgate_model SpicePortType.pInput)
      (lib.model_ports_by_type tgate_model SpicePortType.pOutput)
      module_id tgate_module_id ip op mp mip g i o =
      spec_struct_inst lib tgate_model module_id tgate_module_id ip op mp mip g i o := by
    intro i o
    simp only [List.getD_eq_getElem?_getD] at hn01 hn02 hn03 hn12 hn13 hn23
    unfold struct_code_inst spec_struct_inst
    cases hfe : g.find_edges i o with
    | nil => rfl
    | cons e tail =>
      cases tail with
      | nil =>
        cases hinv : e.inv_mem <;>
          (simp [hinv];
           exact mapInsert_four _ _ _ _ hn01 hn02 hn03 hn12 hn13 hn23 _ _ _ _)
      | cons e2 t2 => rfl
  have hfun : (fun i => g.outputsList.filterMap (struct_code_inst lib tgate_model
      (lib.model_ports_by_type tgate_model SpicePortType.pInput)
      (lib.model_ports_by_type tgate_model SpicePortType.pOutput)
      module_id tgate_module_id ip op mp mip g i)) =
      (fun i => g.outputsList.filterMap
        (spec_struct_inst lib tgate_model module_id tgate_module_id ip op mp mip g i)) :=
    funext fun i => List.filterMap_congr (fun o _ => hinst i o)
  unfold spec_structural_instances
  rw [hfun]

/-- Witness for C3: the spec's 4:1 example over a manager holding the
transmission-gate module (id 0) and the branch module (id 1). -/
theorem C3_structural_instances_witness :
    ∃ mm', generate_verilog_cmos_mux_branch_body_structural c3w_mm exLib 1 1
        (BasicPort.ofWidth "in" 4) (BasicPort.ofWidth "out" 1)
        (BasicPort.ofWidth "mem" 4) (BasicPort.ofWidth "mem_inv" 4) g4 =
        Except.ok (VItem.comment "---- Structure-level description -----" ::
          spec_structural_instances exLib 1 1 0 (BasicPort.ofWidth "in" 4)
            (BasicPort.ofWidth "out" 1) (BasicPort.ofWidth "mem" 4)
            (BasicPort.ofWidth "mem_inv" 4) g4, mm') ∧
      ((∃ i ∈ g4.inputsList, ∃ o ∈ g4.outputsList, ∃ e, g4.find_edges i o = [e]) →
        0 ∈ mm'.module_children 1) :=
  C3_structural_instances c3w_mm exLib 1 1 0 (BasicPort.ofWidth "in" 4)
    (BasicPort.ofWidth "out" 1) (BasicPort.ofWidth "mem" 4)
    (BasicPort.ofWidth "mem_inv" 4) g4 (by decide) (by decide) (by decide) (by decide)
    (by decide) (by decide) (by decide) (by decide) (by decide) (by decide) (by decide)
    (by decide) (by decide)
